import Mathlib

/-!
# Serial I/O controller, `src/core/sio.cpp`

A shallow embedding of the register port and the transfer engine of the serial
controller.  Machine integers are natural numbers reduced modulo `2 ^ w` where
the source truncates.  The controller state is passed explicitly; operations
that can hit an assertion of the receive queue return `Option`.

The header `sio.h` (bit positions of the register bitfields), the queue
template, the connection class and the timing event are declared outside
`sio.cpp`.  Bit positions are taken as a parameter (`Header`); the small
collaborators are modelled from the specification and marked as such.
-/

namespace Sio

/-! ## Integer helpers -/

/-- Truncation of a 32-bit value to `u8`. -/
def Truncate8 (v : Nat) : Nat := v % 256

/-- Truncation of a 32-bit value to `u16`. -/
def Truncate16 (v : Nat) : Nat := v % 65536

/-- Widening of a narrower unsigned value to `u32` (value preserving). -/
def ZeroExtend32 (v : Nat) : Nat := v

/-- Reduction of an arithmetic result to `u32`. -/
def wrap32 (v : Nat) : Nat := v % 4294967296

/-- Conversion `static_cast<TickCount>` of a `u32` to the signed 32-bit tick type. -/
def toTickCount (v : Nat) : Int :=
  if v % 4294967296 < 2147483648 then (v % 4294967296 : Nat)
  else ((v % 4294967296 : Nat) : Int) - 4294967296

/-! ## Bitfields -/

/-- Modelled from the spec: a one-bit boolean field of a register union, read access.
The field at position `pos` is bit `pos` of the raw `bits`. -/
def bitGet (bits pos : Nat) : Bool := bits.testBit pos

/-- Modelled from the spec: a one-bit boolean field of a register union, assignment.
Only bit `pos` of the raw `bits` changes (it is toggled when it differs from `b`). -/
def bitSet (bits pos : Nat) (b : Bool) : Nat :=
  if bits.testBit pos = b then bits else bits ^^^ 2 ^ pos

/-- The fields of the control register `SIO_CTRL` that `sio.cpp` uses. -/
inductive CtrlField where
  | TXEN | DTROUTPUT | RXEN | ACK | RESET | TXINTEN | RXINTEN
deriving DecidableEq

/-- The fields of the status register `SIO_STAT` that `sio.cpp` uses. -/
inductive StatField where
  | TXRDY | RXFIFONEMPTY | TXDONE | RXPARITY | RXFIFOOVERRUN | RXBADSTOPBIT
  | DTRINPUTLEVEL | CTSINPUTLEVEL | INTR
deriving DecidableEq

/-- All control fields. -/
def CtrlField.all : List CtrlField :=
  [.TXEN, .DTROUTPUT, .RXEN, .ACK, .RESET, .TXINTEN, .RXINTEN]

/-- All status fields. -/
def StatField.all : List StatField :=
  [.TXRDY, .RXFIFONEMPTY, .TXDONE, .RXPARITY, .RXFIFOOVERRUN, .RXBADSTOPBIT,
    .DTRINPUTLEVEL, .CTSINPUTLEVEL, .INTR]

/-- Bit positions of the fields of `SIO_CTRL` and `SIO_STAT`, the shift of the
two-bit field `SIO_MODE.reload_factor`, and the scheduler constant
`System::GetMaxSliceTicks()`.  They are declared in headers that are not part
of `sio.cpp`; the development is parametric in them. -/
structure Header where
  ctrl : CtrlField → Nat
  stat : StatField → Nat
  MODE_reload_factor : Nat
  MaxSliceTicks : Int

/-- A header is well formed when the fields of one register are distinct bits
inside the register (16-bit control and mode, 32-bit status). -/
def Header.WF (H : Header) : Prop :=
  (CtrlField.all.map H.ctrl).Nodup ∧ (∀ f ∈ CtrlField.all, H.ctrl f < 16) ∧
  (StatField.all.map H.stat).Nodup ∧ (∀ f ∈ StatField.all, H.stat f < 32) ∧
  H.MODE_reload_factor + 2 ≤ 16

instance (H : Header) : Decidable H.WF := by
  unfold Header.WF; infer_instance

/-- The register layout of the console hardware, used for concrete evaluation. -/
def psxHeader : Header where
  ctrl
    | .TXEN => 0
    | .DTROUTPUT => 1
    | .RXEN => 2
    | .ACK => 4
    | .RESET => 6
    | .TXINTEN => 10
    | .RXINTEN => 11
  stat
    | .TXRDY => 0
    | .RXFIFONEMPTY => 1
    | .TXDONE => 2
    | .RXPARITY => 3
    | .RXFIFOOVERRUN => 4
    | .RXBADSTOPBIT => 5
    | .DTRINPUTLEVEL => 7
    | .CTSINPUTLEVEL => 8
    | .INTR => 9
  MODE_reload_factor := 0
  MaxSliceTicks := 1000

/-! ## Receive queue -/

/-- Modelled from the spec: the receive FIFO, a bounded ordered queue of bytes
with the oldest entry at the head of the list. -/
abbrev FIFOQueue := List Nat

/-- Modelled from the spec: the fixed capacity 8 of the receive FIFO. -/
def CAPACITY : Nat := 8

/-- Modelled from the spec: number of queued bytes. -/
def FIFOQueue.GetSize (q : FIFOQueue) : Nat := q.length

/-- Modelled from the spec: queue holds no byte. -/
def FIFOQueue.IsEmpty (q : FIFOQueue) : Bool := q.length == 0

/-- Modelled from the spec: queue holds `CAPACITY` bytes. -/
def FIFOQueue.IsFull (q : FIFOQueue) : Bool := q.length == CAPACITY

/-- Modelled from the spec: the entry `offset` places behind the oldest one. -/
def FIFOQueue.Peek (q : FIFOQueue) (offset : Nat) : Nat := q.getD offset 0

/-- Modelled from the spec: append as the newest entry; pushing to a queue that
already holds `CAPACITY` bytes is an assertion failure (`none`). -/
def FIFOQueue.Push (q : FIFOQueue) (b : Nat) : Option FIFOQueue :=
  if CAPACITY ≤ q.length then none else some (q ++ [b])

/-- Modelled from the spec: drop the oldest entry; on an empty queue an
assertion failure (`none`). -/
def FIFOQueue.RemoveOne : FIFOQueue → Option FIFOQueue
  | [] => none
  | _ :: t => some t

/-! ## Collaborators -/

/-- Modelled from the spec: the byte-stream connection.  `rx` holds the bytes
the peer has sent and that were not read yet (oldest first), `tx` records the
payload of every `Write` call in order. -/
structure SIOConnection where
  connected : Bool
  rx : List Nat
  tx : List (List Nat)
deriving DecidableEq

/-- Modelled from the spec: `IsConnected()`. -/
def SIOConnection.IsConnected (c : SIOConnection) : Bool := c.connected

/-- Modelled from the spec: `HasData()`, unread bytes are available. -/
def SIOConnection.HasData (c : SIOConnection) : Bool := !c.rx.isEmpty

/-- Modelled from the spec: `Read(buffer, max_len, min_len)`, non-blocking; returns the
bytes read (none when fewer than `min_size` bytes are available) and the connection
after the read. -/
def SIOConnection.Read (c : SIOConnection) (buffer_size min_size : Nat) :
    List Nat × SIOConnection :=
  if c.rx.length < min_size then ([], c)
  else (c.rx.take buffer_size, { c with rx := c.rx.drop buffer_size })

/-- Modelled from the spec: `Write(buffer, len)`, best effort; the call is recorded.
The returned byte count only selects a log message in `sio.cpp`. -/
def SIOConnection.Write (c : SIOConnection) (payload : List Nat) : SIOConnection :=
  { c with tx := c.tx ++ [payload] }

/-- Modelled from the spec: the periodic event, a (period, active) pair. -/
structure TimingEvent where
  period : Int
  active : Bool
deriving DecidableEq

/-- Modelled from the spec: `Deactivate()`. -/
def TimingEvent.Deactivate (e : TimingEvent) : TimingEvent := { e with active := false }

/-- Modelled from the spec: `SetPeriodAndSchedule(ticks)`. -/
def TimingEvent.SetPeriodAndSchedule (_e : TimingEvent) (ticks : Int) : TimingEvent :=
  { period := ticks, active := true }

/-! ## Controller state -/

/-- The members of the controller, plus `irq_requests`, the number of
`InterruptRequest(IRQ::SIO)` calls made to the interrupt controller. -/
structure State where
  m_ctrl : Nat
  m_stat : Nat
  m_mode : Nat
  m_baud_rate : Nat
  m_data_in : FIFOQueue
  m_data_out : Nat
  m_data_out_full : Bool
  m_sync_mode : Bool
  m_connection : Option SIOConnection
  m_transfer_event : TimingEvent
  irq_requests : Nat
deriving DecidableEq

/-- Embedding of `SIO::UpdateTXRX` (lines 69-74). -/
def UpdateTXRX (H : Header) (s : State) : State :=
  let stat1 := bitSet s.m_stat (H.stat .TXRDY) (bitGet s.m_stat (H.stat .CTSINPUTLEVEL) && !s.m_data_out_full)
  let stat2 := bitSet stat1 (H.stat .TXDONE) (bitGet s.m_ctrl (H.ctrl .TXEN) && bitGet stat1 (H.stat .TXRDY))
  let stat3 := bitSet stat2 (H.stat .RXFIFONEMPTY) (!s.m_data_in.IsEmpty)
  { s with m_stat := stat3 }

/-- Embedding of `SIO::SetInterrupt` (lines 76-81). -/
def SetInterrupt (H : Header) (s : State) : State :=
  { s with m_stat := bitSet s.m_stat (H.stat .INTR) true, irq_requests := s.irq_requests + 1 }

/-- The multiplier table of `GetTicksBetweenTransfers`. -/
def mul_factors : List Nat := [1, 16, 64, 0]

/-- The two-bit field `m_mode.reload_factor`. -/
def reload_factor (H : Header) (s : State) : Nat := (s.m_mode >>> H.MODE_reload_factor) % 4

/-- Embedding of `SIO::GetTicksBetweenTransfers` (lines 218-226). -/
def GetTicksBetweenTransfers (H : Header) (s : State) : Int :=
  let factor := mul_factors.getD (reload_factor H s) 0
  let ticks := max (wrap32 (s.m_baud_rate * factor) &&& 4294967294) factor
  toTickCount ticks

/-- Embedding of `SIO::UpdateEvent` (lines 228-245). -/
def UpdateEvent (H : Header) (s : State) : State :=
  match s.m_connection with
  | none => { s with m_transfer_event := s.m_transfer_event.Deactivate }
  | some _ =>
    let ticks := GetTicksBetweenTransfers H s
    let ticks := if ticks = 0 then H.MaxSliceTicks else ticks
    if s.m_transfer_event.period = ticks ∧ s.m_transfer_event.active = true then s
    else { s with m_transfer_event := s.m_transfer_event.Deactivate.SetPeriodAndSchedule ticks }

/-- Embedding of `SIO::SoftReset` (lines 52-67). -/
def SoftReset (H : Header) (s : State) : State :=
  let stat := bitSet (bitSet (bitSet (bitSet s.m_stat (H.stat .RXPARITY) false)
    (H.stat .RXFIFOOVERRUN) false) (H.stat .RXBADSTOPBIT) false) (H.stat .INTR) false
  let s1 : State :=
    { s with m_ctrl := 0, m_stat := stat, m_mode := 0, m_baud_rate := 220, m_data_in := [],
             m_data_out := 0, m_data_out_full := false }
  UpdateTXRX H (UpdateEvent H s1)

/-- Embedding of `SIO::Reset` (lines 37-40). -/
def Reset (H : Header) (s : State) : State := SoftReset H s

/-! ## Transfer engine -/

/-- Flag bit "frame carries data" of the framed protocol. -/
def STATE_HAS_DATA : Nat := 1

/-- Flag bit "peer DTR level" of the framed protocol. -/
def STATE_DTR_LEVEL : Nat := 2

/-- Flag bit "peer CTS level" of the framed protocol. -/
def STATE_CTS_LEVEL : Nat := 4

/-- Both input-level mirrors set to `b` (lines 260-261, 298-299, 316-317). -/
def setInputLevels (H : Header) (s : State) (b : Bool) : State :=
  { s with m_stat := bitSet (bitSet s.m_stat (H.stat .CTSINPUTLEVEL) b) (H.stat .DTRINPUTLEVEL) b }

/-- Receive part of `SIO::TransferWithoutSync` (lines 263-281) on a connection `c`. -/
def receiveWithoutSync (H : Header) (s : State) (c : SIOConnection) :
    Option (State × SIOConnection) :=
  if bitGet s.m_ctrl (H.ctrl .RXEN) then
    match c.Read 1 0 with
    | (data_in :: _, c1) =>
      (if s.m_data_in.IsFull then
          s.m_data_in.RemoveOne.map fun q =>
            { s with m_data_in := q, m_stat := bitSet s.m_stat (H.stat .RXFIFOOVERRUN) true }
        else some s).bind fun s1 =>
      (s1.m_data_in.Push data_in).map fun q =>
        let s2 : State := { s1 with m_data_in := q }
        (if bitGet s2.m_ctrl (H.ctrl .RXINTEN) then SetInterrupt H s2 else s2, c1)
    | ([], c1) => some (s, c1)
  else some (s, c)

/-- Transmit part of `SIO::TransferWithoutSync` (lines 283-294) on a connection `c`. -/
def sendWithoutSync (H : Header) (s : State) (c : SIOConnection) : State × SIOConnection :=
  if bitGet s.m_ctrl (H.ctrl .TXEN) && s.m_data_out_full then
    let data_out := s.m_data_out
    let s1 : State := { s with m_data_out_full := false }
    let c1 := c.Write [data_out]
    (if bitGet s1.m_ctrl (H.ctrl .TXINTEN) then SetInterrupt H s1 else s1, c1)
  else (s, c)

/-- Embedding of `SIO::TransferWithoutSync` (lines 255-303). -/
def TransferWithoutSync (H : Header) (s : State) : Option State :=
  match s.m_connection with
  | some c =>
    if c.IsConnected then
      (receiveWithoutSync H (setInputLevels H s true) c).map fun r =>
        let r2 := sendWithoutSync H r.1 r.2
        UpdateTXRX H { r2.1 with m_connection := some r2.2 }
    else some (UpdateTXRX H (setInputLevels H s false))
  | none => some (UpdateTXRX H (setInputLevels H s false))

/-- Body of the drain loop of `SIO::TransferWithSync` (lines 326-345) for one
frame `buf0, buf1`. -/
def drainFrame (H : Header) (s : State) (buf0 buf1 : Nat) : Option State :=
  (if buf0 &&& STATE_HAS_DATA ≠ 0 then
      (if s.m_data_in.IsFull then
          some { s with m_stat := bitSet s.m_stat (H.stat .RXFIFOOVERRUN) true }
        else (s.m_data_in.Push buf1).map fun q => { s with m_data_in := q }).map fun s1 =>
      if bitGet s1.m_ctrl (H.ctrl .RXINTEN) then SetInterrupt H s1 else s1
    else some s).map fun s2 =>
  let stat1 := bitSet s2.m_stat (H.stat .DTRINPUTLEVEL) (decide (buf0 &&& STATE_DTR_LEVEL ≠ 0))
  let stat2 := bitSet stat1 (H.stat .CTSINPUTLEVEL) (decide (buf0 &&& STATE_CTS_LEVEL ≠ 0))
  { s2 with m_stat := stat2 }

/-- The loop `while (m_connection->Read(buf, 2, 2) != 0)` of `SIO::TransferWithSync`
(lines 324-346).  Every iteration that runs the body removes two bytes from the
connection; `fuel` bounds the number of `Read` calls and `none` is returned
when it is used up before `Read` returns 0. -/
def drainLoop (H : Header) : Nat → State → SIOConnection → Option (State × SIOConnection)
  | 0, _, _ => none
  | fuel + 1, s, c =>
    match c.Read 2 2 with
    | (buf0 :: buf1 :: _, c1) => (drainFrame H s buf0 buf1).bind fun s1 => drainLoop H fuel s1 c1
    | (_, c1) => some (s, c1)

/-- Build-and-send part of `SIO::TransferWithSync` (lines 349-367). -/
def sendWithSync (H : Header) (s : State) (c : SIOConnection) : State :=
  let buf0 := if s.m_data_in.IsFull then 0 else STATE_CTS_LEVEL
  let buf0 := if bitGet s.m_ctrl (H.ctrl .DTROUTPUT) then buf0 ||| STATE_DTR_LEVEL else buf0
  if s.m_data_out_full then
    let s1 : State := { s with m_data_out_full := false }
    let s2 := if bitGet s1.m_ctrl (H.ctrl .TXINTEN) then SetInterrupt H s1 else s1
    { s2 with m_connection := some (c.Write [buf0 ||| STATE_HAS_DATA, s.m_data_out]) }
  else { s with m_connection := some (c.Write [buf0, 0]) }

/-- Embedding of `SIO::TransferWithSync` (lines 305-368). -/
def TransferWithSync (H : Header) (s : State) : Option State :=
  match s.m_connection with
  | none => some (setInputLevels H s false)
  | some c =>
    if !c.IsConnected then some (setInputLevels H s false)
    else
      (if c.HasData then drainLoop H (c.rx.length + 1) s c else some (s, c)).map fun r =>
        sendWithSync H r.1 r.2

/-- Embedding of `SIO::TransferEvent` (lines 247-253). -/
def TransferEvent (H : Header) (s : State) : Option State :=
  if s.m_sync_mode then TransferWithSync H s else TransferWithoutSync H s

/-- Modelled from the spec: `m_transfer_event->InvokeEarly(false)`, the early
invocation.  The scheduler runs the transfer callback exactly when a transfer
is already due (`due`); the schedule itself is not altered. -/
def InvokeEarly (H : Header) (due : Bool) (s : State) : Option State :=
  if due then TransferEvent H s else some s

/-! ## Register port -/

/-- Case 1 of the data-read switch (line 111). -/
def dataCase1 (q : FIFOQueue) (res : Nat) : Nat :=
  res ||| wrap32 (ZeroExtend32 (q.Peek 0) <<< 16)

/-- Case 2 of the data-read switch, falling through to case 1 (line 107). -/
def dataCase2 (q : FIFOQueue) (res : Nat) : Nat :=
  dataCase1 q (res ||| wrap32 (ZeroExtend32 (q.Peek 1) <<< 16))

/-- Case 3 of the data-read switch, falling through to case 2 (line 103). -/
def dataCase3 (q : FIFOQueue) (res : Nat) : Nat :=
  dataCase2 q (res ||| wrap32 (ZeroExtend32 (q.Peek 2) <<< 16))

/-- Cases 7, 6, 5, 4 of the data-read switch, falling through to case 3 (line 99). -/
def dataCase4 (q : FIFOQueue) : Nat :=
  dataCase3 q (wrap32 (ZeroExtend32 (q.Peek 3) <<< 24))

/-- The switch on `data_in_size` of the data read (lines 91-118). -/
def packDataIn (q : FIFOQueue) : Nat :=
  match q.GetSize with
  | 7 => dataCase4 q
  | 6 => dataCase4 q
  | 5 => dataCase4 q
  | 4 => dataCase4 q
  | 3 => dataCase3 q 0
  | 2 => dataCase2 q 0
  | 1 => dataCase1 q 0
  | _ => 4294967295

/-- Embedding of `SIO::ReadRegister` (lines 83-147); `due` tells whether the early invocation
finds a transfer due. -/
def ReadRegister (H : Header) (offset : Nat) (due : Bool) (s : State) : Option (Nat × State) :=
  match offset with
  | 0x00 =>
    (InvokeEarly H due s).map fun s1 => (packDataIn s1.m_data_in, UpdateTXRX H s1)
  | 0x04 =>
    (InvokeEarly H due s).map fun s1 => (s1.m_stat, s1)
  | 0x08 => some (ZeroExtend32 s.m_mode, s)
  | 0x0A => some (ZeroExtend32 s.m_ctrl, s)
  | 0x0E => some (ZeroExtend32 s.m_baud_rate, s)
  | _ => some (4294967295, s)

/-- The acknowledge branch of the control write (lines 176-182). -/
def ackStatus (H : Header) (s : State) : State :=
  { s with m_stat := bitSet (bitSet (bitSet (bitSet s.m_stat (H.stat .RXPARITY) false)
      (H.stat .RXFIFOOVERRUN) false) (H.stat .RXBADSTOPBIT) false) (H.stat .INTR) false }

/-- The control write after the early invocation (lines 172-195). -/
def writeCtrl (H : Header) (value : Nat) (s : State) : State :=
  let s1 : State := { s with m_ctrl := Truncate16 value }
  let s2 := if bitGet s1.m_ctrl (H.ctrl .RESET) then SoftReset H s1 else s1
  let s3 := if bitGet s2.m_ctrl (H.ctrl .ACK) then ackStatus H s2 else s2
  let s4 := if !bitGet s3.m_ctrl (H.ctrl .RXEN) then UpdateTXRX H { s3 with m_data_in := [] } else s3
  if !bitGet s4.m_ctrl (H.ctrl .TXEN) then UpdateTXRX H { s4 with m_data_out_full := false } else s4

/-- Embedding of `SIO::WriteRegister` (lines 149-216); `due` tells whether the early invocation
finds a transfer due. -/
def WriteRegister (H : Header) (offset value : Nat) (due : Bool) (s : State) : Option State :=
  match offset with
  | 0x00 =>
    (InvokeEarly H due s).map fun s1 =>
      UpdateTXRX H { s1 with m_data_out := Truncate8 value, m_data_out_full := true }
  | 0x0A => (InvokeEarly H due s).map fun s1 => writeCtrl H value s1
  | 0x08 => some { s with m_mode := Truncate16 value }
  | 0x0E => some { s with m_baud_rate := Truncate16 value }
  | _ => some s

/-! ## Predicates used by the statements -/

/-- The state reached by a soft reset: control, mode cleared, the four latches
cleared, baud rate 0xDC, receive FIFO empty, transmit slot not full. -/
def ResetPost (H : Header) (s : State) : Prop :=
  s.m_ctrl = 0 ∧ bitGet s.m_stat (H.stat .RXPARITY) = false ∧
  bitGet s.m_stat (H.stat .RXFIFOOVERRUN) = false ∧ bitGet s.m_stat (H.stat .RXBADSTOPBIT) = false ∧
  bitGet s.m_stat (H.stat .INTR) = false ∧ s.m_mode = 0 ∧ s.m_baud_rate = 220 ∧
  s.m_data_in = [] ∧ s.m_data_out_full = false

instance (H : Header) (s : State) : Decidable (ResetPost H s) := by
  unfold ResetPost; infer_instance

/-- A sample state: connected peer with two unread bytes, full receive FIFO,
pending transmit byte, every status bit of the low ten set. -/
def sampleState : State where
  m_ctrl := 0x0005
  m_stat := 0x3FF
  m_mode := 3
  m_baud_rate := 100
  m_data_in := [1, 2, 3, 4, 5, 6, 7, 8]
  m_data_out := 9
  m_data_out_full := true
  m_sync_mode := false
  m_connection := some { connected := true, rx := [0x41, 0x42], tx := [] }
  m_transfer_event := { period := 1, active := false }
  irq_requests := 0

/-- A sample state with consistent derived status bits: one byte queued, transmit
slot empty, peer present, overrun and interrupt latched. -/
def ackSample : State where
  m_ctrl := 0x0005
  m_stat := 0x397
  m_mode := 0
  m_baud_rate := 220
  m_data_in := [0x55]
  m_data_out := 0
  m_data_out_full := false
  m_sync_mode := false
  m_connection := some { connected := true, rx := [], tx := [] }
  m_transfer_event := { period := 220, active := true }
  irq_requests := 1

/-- The four latches cleared by an acknowledge. -/
def LatchesClear (H : Header) (s : State) : Prop :=
  bitGet s.m_stat (H.stat .RXPARITY) = false ∧ bitGet s.m_stat (H.stat .RXFIFOOVERRUN) = false ∧
  bitGet s.m_stat (H.stat .RXBADSTOPBIT) = false ∧ bitGet s.m_stat (H.stat .INTR) = false

instance (H : Header) (s : State) : Decidable (LatchesClear H s) := by
  unfold LatchesClear; infer_instance

/-- Bit `p` of the status register is none of the four latches. -/
def NotLatch (H : Header) (p : Nat) : Prop :=
  p ≠ H.stat .RXPARITY ∧ p ≠ H.stat .RXFIFOOVERRUN ∧ p ≠ H.stat .RXBADSTOPBIT ∧ p ≠ H.stat .INTR

instance (H : Header) (p : Nat) : Decidable (NotLatch H p) := by
  unfold NotLatch; infer_instance

/-- Bit `p` of the status register is none of the three derived bits. -/
def NotDerived (H : Header) (p : Nat) : Prop :=
  p ≠ H.stat .TXRDY ∧ p ≠ H.stat .TXDONE ∧ p ≠ H.stat .RXFIFONEMPTY

instance (H : Header) (p : Nat) : Decidable (NotDerived H p) := by
  unfold NotDerived; infer_instance

/-- The multiplier the claim associates with a reload factor 0, 1, 2. -/
def multiplierOf (f : Nat) : Nat := if f = 0 then 1 else if f = 1 then 16 else 64

/-- A sample state for the tick computation: baud rate 0xDC, reload factor 1. -/
def tickSample : State := { ackSample with m_mode := 1, m_baud_rate := 220 }

/-- The operations of the controller: soft reset, register read and write (with
the verdict of the early invocation), and a transfer tick of either protocol. -/
inductive Op where
  | SoftReset
  | ReadRegister (offset : Nat) (due : Bool)
  | WriteRegister (offset value : Nat) (due : Bool)
  | TransferWithoutSync
  | TransferWithSync
deriving DecidableEq

/-- The state after one operation; `none` when an assertion of the receive queue
fails on the way. -/
def step (H : Header) : Op → State → Option State
  | .SoftReset, s => some (SoftReset H s)
  | .ReadRegister offset due, s => (ReadRegister H offset due s).map Prod.snd
  | .WriteRegister offset value due, s => WriteRegister H offset value due s
  | .TransferWithoutSync, s => TransferWithoutSync H s
  | .TransferWithSync, s => TransferWithSync H s

/-- The transmit part of an unframed tick raises an interrupt: TXEN set, transmit
slot full and TXINTEN set. -/
def txInterrupt (H : Header) (s : State) : Bool :=
  bitGet s.m_ctrl (H.ctrl .TXEN) && s.m_data_out_full && bitGet s.m_ctrl (H.ctrl .TXINTEN)

/-- A sample state of the framed protocol: full receive FIFO, one data frame
pending on the connection. -/
def framedSample : State :=
  { sampleState with
    m_sync_mode := true
    m_stat := 0x185
    m_connection := some { connected := true, rx := [5, 0x7F], tx := [] } }

/-- The packing the claim on the data read describes: bits 24-31 of the word `r`
are zero and every set bit of the oldest queued byte appears in bits 16-23. -/
def PacksLow24 (q : FIFOQueue) (r : Nat) : Prop :=
  (∀ i, i < 8 → r.testBit (24 + i) = false) ∧
  (∀ i, i < 8 → (q.Peek 0).testBit i = true → r.testBit (16 + i) = true)

instance (q : FIFOQueue) (r : Nat) : Decidable (PacksLow24 q r) := by
  unfold PacksLow24; infer_instance

/-- A sample state with four queued bytes, the fourth being 0x80. -/
def readSample : State := { ackSample with m_data_in := [0x12, 0x34, 0x56, 0x80] }

/-- A sample state whose connection is attached but not established. -/
def disconnectedSample : State :=
  { sampleState with
    m_connection := some { connected := false, rx := [0x41, 0x42], tx := [] } }

/-- The complete 2-byte frames at the head of a byte sequence, in arrival order,
as pairs (flag byte, data byte). -/
def framesOf : List Nat → List (Nat × Nat)
  | buf0 :: buf1 :: rest => (buf0, buf1) :: framesOf rest
  | _ => []

/-- The bytes that remain after the complete frames of a byte sequence (at most one). -/
def leftover : List Nat → List Nat
  | _ :: _ :: rest => leftover rest
  | rest => rest

/-- The loop body `drainFrame` applied to a list of frames in arrival order. -/
def drainAll (H : Header) (s : State) : List (Nat × Nat) → Option State
  | [] => some s
  | f :: fs => (drainFrame H s f.1 f.2).bind fun s1 => drainAll H s1 fs

/-- The data bytes of the frames whose data flag (bit 0 of the flag byte) is set,
in arrival order. -/
def dataBytes : List (Nat × Nat) → List Nat
  | [] => []
  | f :: fs => if bitGet f.1 0 then f.2 :: dataBytes fs else dataBytes fs

/-- The registers and members no transfer step writes: control, mode, baud rate,
pending transmit byte, protocol selection and the periodic event. -/
def KeepsConfig (s s1 : State) : Prop :=
  s1.m_ctrl = s.m_ctrl ∧ s1.m_mode = s.m_mode ∧ s1.m_baud_rate = s.m_baud_rate ∧
  s1.m_data_out = s.m_data_out ∧ s1.m_sync_mode = s.m_sync_mode ∧
  s1.m_transfer_event = s.m_transfer_event

/-- The bytes of a sequence of frames as they arrive on the connection. -/
def frameBytes : List (Nat × Nat) → List Nat
  | [] => []
  | f :: fs => f.1 :: f.2 :: frameBytes fs

/-- The flag byte of the outgoing frame: CTS (4) unless the FIFO holds 8 bytes,
DTR (2) when requested, data flag (1) when a byte is pending. -/
def outFlags (fifoSize : Nat) (dtr pending : Bool) : Nat :=
  (if fifoSize < 8 then 4 else 0) ||| (if dtr then 2 else 0) ||| (if pending then 1 else 0)

/-- A sample state of the framed protocol with three bytes queued, RXINTEN set and
the frame 0b101, 0x7F pending on the connection. -/
def scenarioSample : State :=
  { ackSample with
    m_ctrl := 0x0805
    m_sync_mode := true
    m_data_in := [1, 2, 3]
    m_connection := some { connected := true, rx := [5, 0x7F], tx := [] } }

/-- The control read-back the claim describes: the low 16 bits of the written
value with the RESET and ACK bits cleared. -/
def ctrlReadBackClaimed (H : Header) (v : Nat) : Nat :=
  bitSet (bitSet (Truncate16 v) (H.ctrl .RESET) false) (H.ctrl .ACK) false

/-- A sample state of the framed protocol: six bytes queued and five frames
pending, three of them carrying data. -/
def drainSample : State :=
  { ackSample with
    m_sync_mode := true
    m_data_in := [1, 2, 3, 4, 5, 6]
    m_connection :=
      some { connected := true, rx := [1, 0x11, 3, 0x22, 4, 0x33, 1, 0x44, 2, 0x55], tx := [] } }

/-- The derived status bits agree with the state they are derived from:
TXRDY = CTS input level and slot not full, TXDONE = TXEN and TXRDY,
RXFIFONEMPTY = FIFO not empty. -/
def DerivedConsistent (H : Header) (s : State) : Prop :=
  bitGet s.m_stat (H.stat .TXRDY) =
    (bitGet s.m_stat (H.stat .CTSINPUTLEVEL) && !s.m_data_out_full) ∧
  bitGet s.m_stat (H.stat .TXDONE) =
    (bitGet s.m_ctrl (H.ctrl .TXEN) && bitGet s.m_stat (H.stat .TXRDY)) ∧
  bitGet s.m_stat (H.stat .RXFIFONEMPTY) = !s.m_data_in.IsEmpty

instance (H : Header) (s : State) : Decidable (DerivedConsistent H s) := by
  unfold DerivedConsistent; infer_instance

/-- A consistent state of the framed protocol: nothing queued, transmit slot
empty, peer present, one data frame with flags 0b001 pending. -/
def consistentFramed : State where
  m_ctrl := 0x0005
  m_stat := 0x185
  m_mode := 0
  m_baud_rate := 220
  m_data_in := []
  m_data_out := 0
  m_data_out_full := false
  m_sync_mode := true
  m_connection := some { connected := true, rx := [1, 0x7F], tx := [] }
  m_transfer_event := { period := 220, active := true }
  irq_requests := 0

/-- A consistent state with both directions disabled in the control register. -/
def consistentDisabled : State :=
  { consistentFramed with m_ctrl := 0, m_stat := 0x181 }

/-- What can happen to the controller: one of its operations, or a change of the
connection made from outside (bytes arriving, the link going up or down, the
transport consuming written payloads).  A missing connection stays missing. -/
inductive Event where
  | op (o : Op)
  | peer (c : SIOConnection)

/-- The state after one event. -/
def Event.apply (H : Header) : Event → State → Option State
  | .op o, s => step H o s
  | .peer c, s =>
    some (match s.m_connection with
      | none => s
      | some _ => { s with m_connection := some c })

/-- The state after a finite sequence of events. -/
def run (H : Header) : List Event → State → Option State
  | [], s => some s
  | e :: es, s => (e.apply H s).bind (run H es)

/-- Operations other than a control write and a direct soft reset: every register
read, the data, mode and baud writes (and writes to unknown offsets), and the
transfer ticks. -/
def Op.nonCtrl : Op → Bool
  | .SoftReset => false
  | .WriteRegister offset _ _ => offset != 0x0A
  | _ => true

/-- Events other than a control write and a direct soft reset. -/
def Event.nonCtrl : Event → Bool
  | .op o => o.nonCtrl
  | .peer _ => true

/-- Embedding of `SIO::Initialize` (lines 17-29): the event is created with period 1
and inactive, `conn` is the connection the factory returned (possibly none),
the status bits are zeroed and the controller is reset.  `pre` holds the members
as constructed. -/
def Initialize (H : Header) (pre : State) (conn : Option SIOConnection) : State :=
  Reset H { pre with
    m_transfer_event := { period := 1, active := false }
    m_connection := conn
    m_stat := 0 }

/-- The schedule the claim describes: the event is active exactly when a
connection is attached, and an active event has period 220. -/
def ScheduleInv (s : State) : Prop :=
  s.m_transfer_event.active = s.m_connection.isSome ∧
  (s.m_transfer_event.active = true → s.m_transfer_event.period = 220)

instance (s : State) : Decidable (ScheduleInv s) := by
  unfold ScheduleInv; infer_instance

/-- A sample event sequence: mode and baud writes of arbitrary values, bytes
arriving, ticks of both protocols, a data read and write, a control write with
RESET. -/
def sampleEvents : List Event :=
  [.op (.WriteRegister 0x08 0xFFFF false), .op (.WriteRegister 0x0E 0 false),
    .peer { connected := true, rx := [0x41, 3, 0x7F], tx := [] },
    .op .TransferWithoutSync, .op .TransferWithSync, .op (.ReadRegister 0x00 true),
    .op (.WriteRegister 0x00 0x55 true), .op (.WriteRegister 0x0A 0x0047 true),
    .op (.WriteRegister 0x08 0x0003 false), .op (.ReadRegister 0x04 true)]

/-- The sample events without the control write. -/
def sampleNonCtrlEvents : List Event :=
  [.op (.WriteRegister 0x08 0xFFFF false), .op (.WriteRegister 0x0E 0 false),
    .peer { connected := true, rx := [0x41, 3, 0x7F], tx := [] },
    .op .TransferWithoutSync, .op .TransferWithSync, .op (.ReadRegister 0x00 true),
    .op (.WriteRegister 0x00 0x55 true), .op (.ReadRegister 0x04 true)]

/-! ## Bitfield and frame lemmas -/


theorem bitGet_bitSet_self (x p : Nat) (b : Bool) : bitGet (bitSet x p b) p = b := by
  unfold bitGet bitSet
  split
  · assumption
  · rename_i h
    simp [Nat.testBit_xor, Nat.testBit_two_pow_self]
    cases b <;> simp_all

theorem bitGet_bitSet_ne (x p q : Nat) (b : Bool) (h : q ≠ p) :
    bitGet (bitSet x p b) q = bitGet x q := by
  unfold bitGet bitSet
  split
  · rfl
  · simp [Nat.testBit_xor, Nat.testBit_two_pow, Ne.symm h]

theorem bitGet_zero (p : Nat) : bitGet 0 p = false := by
  simp [bitGet]

theorem bitGet_Truncate16 (v p : Nat) (h : p < 16) : bitGet (Truncate16 v) p = bitGet v p := by
  unfold bitGet Truncate16
  rw [show (65536 : Nat) = 2 ^ 16 from rfl, Nat.testBit_mod_two_pow]
  simp [h]

/-! ### Frame lemmas -/

@[simp]
theorem UpdateTXRX_m_ctrl (H : Header) (s : State) : (UpdateTXRX H s).m_ctrl = s.m_ctrl := rfl
@[simp]
theorem UpdateTXRX_m_mode (H : Header) (s : State) : (UpdateTXRX H s).m_mode = s.m_mode := rfl
@[simp]
theorem UpdateTXRX_m_baud_rate (H : Header) (s : State) :
    (UpdateTXRX H s).m_baud_rate = s.m_baud_rate := rfl
@[simp]
theorem UpdateTXRX_m_data_in (H : Header) (s : State) :
    (UpdateTXRX H s).m_data_in = s.m_data_in := rfl
@[simp]
theorem UpdateTXRX_m_data_out (H : Header) (s : State) :
    (UpdateTXRX H s).m_data_out = s.m_data_out := rfl
@[simp]
theorem UpdateTXRX_m_data_out_full (H : Header) (s : State) :
    (UpdateTXRX H s).m_data_out_full = s.m_data_out_full := rfl
@[simp]
theorem UpdateTXRX_m_sync_mode (H : Header) (s : State) :
    (UpdateTXRX H s).m_sync_mode = s.m_sync_mode := rfl
@[simp]
theorem UpdateTXRX_m_connection (H : Header) (s : State) :
    (UpdateTXRX H s).m_connection = s.m_connection := rfl
@[simp]
theorem UpdateTXRX_m_transfer_event (H : Header) (s : State) :
    (UpdateTXRX H s).m_transfer_event = s.m_transfer_event := rfl
@[simp]
theorem UpdateTXRX_irq_requests (H : Header) (s : State) :
    (UpdateTXRX H s).irq_requests = s.irq_requests := rfl

theorem UpdateEvent_eq (H : Header) (s : State) :
    UpdateEvent H s = { s with m_transfer_event := (UpdateEvent H s).m_transfer_event } := by
  unfold UpdateEvent
  split
  · rfl
  · dsimp only
    split_ifs <;> rfl

@[simp]
theorem UpdateEvent_m_ctrl (H : Header) (s : State) : (UpdateEvent H s).m_ctrl = s.m_ctrl := by
  rw [UpdateEvent_eq]
@[simp]
theorem UpdateEvent_m_stat (H : Header) (s : State) : (UpdateEvent H s).m_stat = s.m_stat := by
  rw [UpdateEvent_eq]
@[simp]
theorem UpdateEvent_m_mode (H : Header) (s : State) : (UpdateEvent H s).m_mode = s.m_mode := by
  rw [UpdateEvent_eq]
@[simp]
theorem UpdateEvent_m_baud_rate (H : Header) (s : State) :
    (UpdateEvent H s).m_baud_rate = s.m_baud_rate := by
  rw [UpdateEvent_eq]
@[simp]
theorem UpdateEvent_m_data_in (H : Header) (s : State) :
    (UpdateEvent H s).m_data_in = s.m_data_in := by
  rw [UpdateEvent_eq]
@[simp]
theorem UpdateEvent_m_data_out (H : Header) (s : State) :
    (UpdateEvent H s).m_data_out = s.m_data_out := by
  rw [UpdateEvent_eq]
@[simp]
theorem UpdateEvent_m_data_out_full (H : Header) (s : State) :
    (UpdateEvent H s).m_data_out_full = s.m_data_out_full := by
  rw [UpdateEvent_eq]
@[simp]
theorem UpdateEvent_m_sync_mode (H : Header) (s : State) :
    (UpdateEvent H s).m_sync_mode = s.m_sync_mode := by
  rw [UpdateEvent_eq]
@[simp]
theorem UpdateEvent_m_connection (H : Header) (s : State) :
    (UpdateEvent H s).m_connection = s.m_connection := by
  rw [UpdateEvent_eq]
@[simp]
theorem UpdateEvent_irq_requests (H : Header) (s : State) :
    (UpdateEvent H s).irq_requests = s.irq_requests := by
  rw [UpdateEvent_eq]

theorem UpdateTXRX_m_stat (H : Header) (s : State) :
    (UpdateTXRX H s).m_stat =
      bitSet (bitSet (bitSet s.m_stat (H.stat .TXRDY)
        (bitGet s.m_stat (H.stat .CTSINPUTLEVEL) && !s.m_data_out_full)) (H.stat .TXDONE)
        (bitGet s.m_ctrl (H.ctrl .TXEN) && bitGet (bitSet s.m_stat (H.stat .TXRDY)
        (bitGet s.m_stat (H.stat .CTSINPUTLEVEL) && !s.m_data_out_full)) (H.stat .TXRDY)))
        (H.stat .RXFIFONEMPTY) (!s.m_data_in.IsEmpty) := by
  simp only [UpdateTXRX]

theorem Header.WF.stat_eq_iff {H : Header} (hH : H.WF) (f g : StatField) :
    H.stat f = H.stat g ↔ f = g := by
  constructor
  · intro h
    exact List.inj_on_of_nodup_map hH.2.2.1 (by cases f <;> simp [StatField.all])
      (by cases g <;> simp [StatField.all]) h
  · intro h; rw [h]

theorem Header.WF.ctrl_eq_iff {H : Header} (hH : H.WF) (f g : CtrlField) :
    H.ctrl f = H.ctrl g ↔ f = g := by
  constructor
  · intro h
    exact List.inj_on_of_nodup_map hH.1 (by cases f <;> simp [CtrlField.all])
      (by cases g <;> simp [CtrlField.all]) h
  · intro h; rw [h]

theorem Header.WF.ctrl_lt {H : Header} (hH : H.WF) (f : CtrlField) : H.ctrl f < 16 :=
  hH.2.1 f (by cases f <;> simp [CtrlField.all])

theorem Header.WF.stat_lt {H : Header} (hH : H.WF) (f : StatField) : H.stat f < 32 :=
  hH.2.2.2.1 f (by cases f <;> simp [StatField.all])

theorem bitGet_bitSet (x p q : Nat) (b : Bool) :
    bitGet (bitSet x p b) q = if q = p then b else bitGet x q := by
  split
  · rename_i h; rw [h, bitGet_bitSet_self]
  · rename_i h; rw [bitGet_bitSet_ne _ _ _ _ h]

theorem SoftReset_post (H : Header) (hH : H.WF) (s : State) : ResetPost H (SoftReset H s) := by
  simp [SoftReset, ResetPost, UpdateTXRX_m_stat, bitGet_bitSet, hH.stat_eq_iff]

/-! ### Totality of the transfer step -/


theorem Push_of_lt (q : FIFOQueue) (b : Nat) (h : q.length < 8) :
    FIFOQueue.Push q b = some (q ++ [b]) := by
  unfold FIFOQueue.Push CAPACITY
  rw [if_neg (by omega)]

theorem receiveWithoutSync_total (H : Header) (s : State) (c : SIOConnection)
    (h : s.m_data_in.length ≤ 8) :
    ∃ r, receiveWithoutSync H s c = some r ∧ r.1.m_data_in.length ≤ 8 := by
  unfold receiveWithoutSync
  split
  · split
    · rename_i data_in rest c1 _
      by_cases hf : s.m_data_in.IsFull = true
      · rw [if_pos hf]
        have h8 : s.m_data_in.length = 8 := by simpa [FIFOQueue.IsFull, CAPACITY] using hf
        cases hq : s.m_data_in with
        | nil => rw [hq] at h8; simp at h8
        | cons a t =>
          rw [hq] at h8
          have ht : t.length < 8 := by simp at h8; omega
          simp only [FIFOQueue.RemoveOne, Option.map_some', Option.some_bind, Push_of_lt t data_in ht]
          refine ⟨_, rfl, ?_⟩
          split <;> simp [SetInterrupt] <;> omega
      · rw [if_neg hf]
        have h8 : s.m_data_in.length < 8 := by
          have : s.m_data_in.length ≠ 8 := by simpa [FIFOQueue.IsFull, CAPACITY] using hf
          omega
        simp only [Option.some_bind, Push_of_lt _ data_in h8, Option.map_some']
        refine ⟨_, rfl, ?_⟩
        split <;> simp [SetInterrupt] <;> omega
    · exact ⟨_, rfl, h⟩
  · exact ⟨_, rfl, h⟩

theorem drainFrame_total (H : Header) (s : State) (buf0 buf1 : Nat)
    (h : s.m_data_in.length ≤ 8) :
    ∃ s1, drainFrame H s buf0 buf1 = some s1 ∧ s1.m_data_in.length ≤ 8 := by
  unfold drainFrame
  by_cases hd : buf0 &&& STATE_HAS_DATA ≠ 0
  · rw [if_pos hd]
    by_cases hf : s.m_data_in.IsFull = true
    · rw [if_pos hf]
      refine ⟨_, rfl, ?_⟩
      dsimp only
      split <;> simpa [SetInterrupt] using h
    · rw [if_neg hf]
      have h8 : s.m_data_in.length < 8 := by
        have : s.m_data_in.length ≠ 8 := by simpa [FIFOQueue.IsFull, CAPACITY] using hf
        omega
      simp only [Push_of_lt _ buf1 h8, Option.map_some']
      refine ⟨_, rfl, ?_⟩
      dsimp only
      split <;> simp [SetInterrupt] <;> omega
  · rw [if_neg hd]
    exact ⟨_, rfl, h⟩

theorem drainLoop_total (H : Header) (fuel : Nat) : ∀ (s : State) (c : SIOConnection),
    c.rx.length < fuel → s.m_data_in.length ≤ 8 →
    ∃ r, drainLoop H fuel s c = some r ∧ r.1.m_data_in.length ≤ 8 := by
  induction fuel with
  | zero => intro s c hc; omega
  | succ n ih =>
    intro s c hc h
    unfold drainLoop
    split
    · rename_i buf0 buf1 rest c1 hr
      obtain ⟨s1, hs1, h1⟩ := drainFrame_total H s buf0 buf1 h
      rw [hs1, Option.some_bind]
      apply ih s1 c1 _ h1
      unfold SIOConnection.Read at hr
      split at hr
      · simp at hr
      · simp only [Prod.mk.injEq] at hr
        rw [← hr.2]
        simp only [List.length_drop]
        have : 2 ≤ c.rx.length := by omega
        omega
    · exact ⟨_, rfl, h⟩

theorem TransferWithoutSync_total (H : Header) (s : State) (h : s.m_data_in.length ≤ 8) :
    ∃ s1, TransferWithoutSync H s = some s1 ∧ s1.m_data_in.length ≤ 8 := by
  unfold TransferWithoutSync
  split
  · rename_i c _
    split
    · obtain ⟨r, hr, h1⟩ := receiveWithoutSync_total H (setInputLevels H s true) c h
      rw [hr]
      refine ⟨_, rfl, ?_⟩
      simp only [UpdateTXRX_m_data_in]
      unfold sendWithoutSync
      split
      · dsimp only; split <;> simpa [SetInterrupt] using h1
      · exact h1
    · exact ⟨_, rfl, h⟩
  · exact ⟨_, rfl, h⟩

theorem sendWithSync_m_data_in (H : Header) (s : State) (c : SIOConnection) :
    (sendWithSync H s c).m_data_in = s.m_data_in := by
  unfold sendWithSync
  dsimp only
  split
  · split <;> rfl
  · rfl

theorem TransferWithSync_total (H : Header) (s : State) (h : s.m_data_in.length ≤ 8) :
    ∃ s1, TransferWithSync H s = some s1 ∧ s1.m_data_in.length ≤ 8 := by
  unfold TransferWithSync
  split
  · exact ⟨_, rfl, h⟩
  · rename_i c _
    split
    · exact ⟨_, rfl, h⟩
    · split
      · obtain ⟨r, hr, h1⟩ := drainLoop_total H (c.rx.length + 1) s c (by omega) h
        rw [hr]
        exact ⟨_, rfl, by simpa [sendWithSync_m_data_in] using h1⟩
      · exact ⟨_, rfl, by simpa [sendWithSync_m_data_in] using h⟩

theorem TransferEvent_total (H : Header) (s : State) (h : s.m_data_in.length ≤ 8) :
    ∃ s1, TransferEvent H s = some s1 ∧ s1.m_data_in.length ≤ 8 := by
  unfold TransferEvent
  split
  · exact TransferWithSync_total H s h
  · exact TransferWithoutSync_total H s h

theorem InvokeEarly_total (H : Header) (due : Bool) (s : State) (h : s.m_data_in.length ≤ 8) :
    ∃ s1, InvokeEarly H due s = some s1 ∧ s1.m_data_in.length ≤ 8 := by
  unfold InvokeEarly
  split
  · exact TransferEvent_total H s h
  · exact ⟨_, rfl, h⟩

/-! ## C1: soft reset -/


theorem writeCtrl_reset (H : Header) (hH : H.WF) (v : Nat) (s : State)
    (hv : bitGet v (H.ctrl .RESET) = true) : ResetPost H (writeCtrl H v s) := by
  have hv2 : bitGet (Truncate16 v) (H.ctrl .RESET) = true := by
    rw [bitGet_Truncate16 _ _ (hH.ctrl_lt _)]; exact hv
  simp [writeCtrl, hv2, SoftReset, ackStatus, bitGet_zero, ResetPost, UpdateTXRX_m_stat,
    bitGet_bitSet, hH.stat_eq_iff]

/-- C1: a control write whose value has the RESET bit set ends, from every state
and whatever the other bits of the value and whether or not a transfer was due,
in the soft-reset state (control 0, the four latches clear, mode 0, baud rate
0xDC, receive FIFO empty, transmit slot not full); so do `SoftReset` and `Reset`. -/
theorem C1_control_reset (H : Header) (hH : H.WF) (s : State) (hq : s.m_data_in.length ≤ 8)
    (v : Nat) (due : Bool) (hv : bitGet v (H.ctrl .RESET) = true) :
    (∃ s1, WriteRegister H 0x0A v due s = some s1 ∧ ResetPost H s1) ∧
      ResetPost H (SoftReset H s) ∧ ResetPost H (Reset H s) := by
  refine ⟨?_, SoftReset_post H hH s, SoftReset_post H hH s⟩
  obtain ⟨s1, h1, _⟩ := InvokeEarly_total H due s hq
  refine ⟨writeCtrl H v s1, ?_, writeCtrl_reset H hH v s1 hv⟩
  simp [WriteRegister, h1]

theorem C1_control_reset_witness :
    (∃ s1, WriteRegister psxHeader 0x0A 0xFFFF true sampleState = some s1 ∧
        ResetPost psxHeader s1) ∧
      ResetPost psxHeader (SoftReset psxHeader sampleState) ∧
      ResetPost psxHeader (Reset psxHeader sampleState) :=
  C1_control_reset psxHeader (by decide) sampleState (by decide) 0xFFFF true (by decide)

/-! ## C2: acknowledge -/


/-- C2 as stated fails: from `ackSample` (one byte queued) the write of a value
with only ACK set returns a state whose status bit RXFIFONEMPTY, which is none
of the four latches, differs from its value before the write. -/
theorem C2_ack_other_bits_counterexample :
    bitGet 0x10 (psxHeader.ctrl .ACK) = true ∧ bitGet 0x10 (psxHeader.ctrl .RESET) = false ∧
    ¬ (∃ s1, WriteRegister psxHeader 0x0A 0x10 false ackSample = some s1 ∧
        LatchesClear psxHeader s1 ∧
        ∀ p, NotLatch psxHeader p → bitGet s1.m_stat p = bitGet ackSample.m_stat p) := by
  refine ⟨by decide, by decide, ?_⟩
  rintro ⟨s1, h1, _, h3⟩
  have h4 := h3 (psxHeader.stat .RXFIFONEMPTY) (by decide)
  have h5 : s1 = writeCtrl psxHeader 0x10 ackSample := by
    simpa [WriteRegister, InvokeEarly] using h1.symm
  subst h5
  revert h4
  decide

/-- C2 (amended): a control write with ACK set and RESET clear and no transfer due
leaves the four latches false and every status bit other than the latches and the
derived bits TXRDY, TXDONE, RXFIFONEMPTY unchanged.  The write stores the low 16
bits of the value, empties the FIFO when RXEN is clear and the transmit slot when
TXEN is clear, and when RXEN or TXEN is clear the derived bits are recomputed
from that state (TXRDY = CTS level and slot not full, TXDONE = TXEN and TXRDY,
RXFIFONEMPTY = FIFO not empty); when the value has RXEN and TXEN set, every
status bit other than the four latches is unchanged. -/
theorem C2_ack_frame (H : Header) (hH : H.WF) (s : State) (v : Nat)
    (hack : bitGet v (H.ctrl .ACK) = true) (hres : bitGet v (H.ctrl .RESET) = false) :
    ∃ s1, WriteRegister H 0x0A v false s = some s1 ∧ LatchesClear H s1 ∧
      (∀ p, NotLatch H p → NotDerived H p → bitGet s1.m_stat p = bitGet s.m_stat p) ∧
      (bitGet v (H.ctrl .RXEN) = true → bitGet v (H.ctrl .TXEN) = true →
        ∀ p, NotLatch H p → bitGet s1.m_stat p = bitGet s.m_stat p) ∧
      s1.m_ctrl = v % 65536 ∧
      s1.m_data_in = (if bitGet v (H.ctrl .RXEN) then s.m_data_in else []) ∧
      s1.m_data_out_full = (bitGet v (H.ctrl .TXEN) && s.m_data_out_full) ∧
      ((bitGet v (H.ctrl .RXEN) = false ∨ bitGet v (H.ctrl .TXEN) = false) →
        DerivedConsistent H s1) := by
  have hack2 : bitGet (Truncate16 v) (H.ctrl .ACK) = true := by
    rw [bitGet_Truncate16 _ _ (hH.ctrl_lt _)]; exact hack
  have hres2 : bitGet (Truncate16 v) (H.ctrl .RESET) = false := by
    rw [bitGet_Truncate16 _ _ (hH.ctrl_lt _)]; exact hres
  have hrx : bitGet (Truncate16 v) (H.ctrl .RXEN) = bitGet v (H.ctrl .RXEN) :=
    bitGet_Truncate16 _ _ (hH.ctrl_lt _)
  have htx : bitGet (Truncate16 v) (H.ctrl .TXEN) = bitGet v (H.ctrl .TXEN) :=
    bitGet_Truncate16 _ _ (hH.ctrl_lt _)
  have ht16 : Truncate16 v = v % 65536 := rfl
  refine ⟨writeCtrl H v s, by simp [WriteRegister, InvokeEarly], ?_, ?_, ?_, ?_, ?_, ?_, ?_⟩
  · cases h1 : bitGet v (H.ctrl .RXEN) <;> cases h2 : bitGet v (H.ctrl .TXEN) <;>
      simp [writeCtrl, hack2, hres2, hrx, htx, h1, h2, ackStatus, LatchesClear,
        UpdateTXRX_m_stat, bitGet_bitSet, hH.stat_eq_iff]
  · rintro p ⟨a1, a2, a3, a4⟩ ⟨b1, b2, b3⟩
    cases h1 : bitGet v (H.ctrl .RXEN) <;> cases h2 : bitGet v (H.ctrl .TXEN) <;>
      simp [writeCtrl, hack2, hres2, hrx, htx, h1, h2, ackStatus,
        UpdateTXRX_m_stat, bitGet_bitSet, a1, a2, a3, a4, b1, b2, b3]
  · rintro h1 h2 p ⟨a1, a2, a3, a4⟩
    simp [writeCtrl, hack2, hres2, hrx, htx, h1, h2, ackStatus, bitGet_bitSet, a1, a2, a3, a4]
  · rw [← ht16]
    cases h1 : bitGet v (H.ctrl .RXEN) <;> cases h2 : bitGet v (H.ctrl .TXEN) <;>
      simp [writeCtrl, hack2, hres2, hrx, htx, h1, h2, ackStatus]
  · cases h1 : bitGet v (H.ctrl .RXEN) <;> cases h2 : bitGet v (H.ctrl .TXEN) <;>
      simp [writeCtrl, hack2, hres2, hrx, htx, h1, h2, ackStatus]
  · cases h1 : bitGet v (H.ctrl .RXEN) <;> cases h2 : bitGet v (H.ctrl .TXEN) <;>
      simp [writeCtrl, hack2, hres2, hrx, htx, h1, h2, ackStatus]
  · intro hdis
    cases h1 : bitGet v (H.ctrl .RXEN) <;> cases h2 : bitGet v (H.ctrl .TXEN)
    · simp [writeCtrl, hack2, hres2, hrx, htx, h1, h2, ackStatus, DerivedConsistent,
        UpdateTXRX_m_stat, bitGet_bitSet, hH.stat_eq_iff, FIFOQueue.IsEmpty]
    · simp [writeCtrl, hack2, hres2, hrx, htx, h1, h2, ackStatus, DerivedConsistent,
        UpdateTXRX_m_stat, bitGet_bitSet, hH.stat_eq_iff, FIFOQueue.IsEmpty]
    · simp [writeCtrl, hack2, hres2, hrx, htx, h1, h2, ackStatus, DerivedConsistent,
        UpdateTXRX_m_stat, bitGet_bitSet, hH.stat_eq_iff, FIFOQueue.IsEmpty]
    · rw [h1, h2] at hdis
      simp at hdis

theorem C2_ack_frame_witness :
    ∃ s1, WriteRegister psxHeader 0x0A 0x10 false ackSample = some s1 ∧
      LatchesClear psxHeader s1 ∧
      (∀ p, NotLatch psxHeader p → NotDerived psxHeader p →
        bitGet s1.m_stat p = bitGet ackSample.m_stat p) ∧
      (bitGet 0x10 (psxHeader.ctrl .RXEN) = true → bitGet 0x10 (psxHeader.ctrl .TXEN) = true →
        ∀ p, NotLatch psxHeader p → bitGet s1.m_stat p = bitGet ackSample.m_stat p) ∧
      s1.m_ctrl = 0x10 % 65536 ∧
      s1.m_data_in = (if bitGet 0x10 (psxHeader.ctrl .RXEN) then ackSample.m_data_in else []) ∧
      s1.m_data_out_full = (bitGet 0x10 (psxHeader.ctrl .TXEN) && ackSample.m_data_out_full) ∧
      ((bitGet 0x10 (psxHeader.ctrl .RXEN) = false ∨
          bitGet 0x10 (psxHeader.ctrl .TXEN) = false) →
        DerivedConsistent psxHeader s1) :=
  C2_ack_frame psxHeader (by decide) ackSample 0x10 (by decide) (by decide)

/-! ## C3: tick period -/


theorem and_clear_lowest (x : Nat) (hx : x < 4294967296) : x &&& 4294967294 = x - x % 2 := by
  apply Nat.eq_of_testBit_eq
  intro i
  rw [Nat.testBit_and]
  cases i with
  | zero =>
    have h1 : Nat.testBit 4294967294 0 = false := by decide
    have h2 : Nat.testBit (x - x % 2) 0 = false := by
      rw [Nat.testBit_zero]; simp; omega
    rw [h1, h2, Bool.and_false]
  | succ i =>
    have h2 : Nat.testBit (x - x % 2) (i + 1) = Nat.testBit x (i + 1) := by
      rw [Nat.testBit_succ, Nat.testBit_succ]
      congr 1; omega
    rw [h2]
    have h3 : Nat.testBit 4294967294 (i + 1) = decide (i < 31) := by
      rw [Nat.testBit_succ]
      exact Nat.testBit_two_pow_sub_one 31 i
    rw [h3]
    by_cases hi : i < 31
    · simp [hi]
    · have : Nat.testBit x (i + 1) = false := by
        apply Nat.testBit_lt_two_pow
        calc x < 2 ^ 32 := hx
          _ ≤ 2 ^ (i + 1) := Nat.pow_le_pow_right (by decide) (by omega)
      simp [this]

/-- C3: for a baud rate in [1, 0xFFFF] and a reload factor 0, 1 or 2 with
multiplier 1, 16, 64, the product does not wrap in 32 bits and
`GetTicksBetweenTransfers` returns the non-negative value
`t = max (product with its lowest bit cleared) multiplier`, with `t` at least
the multiplier and `t` even or equal to the multiplier. -/
theorem C3_ticks_between_transfers (H : Header) (s : State) (f : Nat)
    (hlo : 1 ≤ s.m_baud_rate) (hhi : s.m_baud_rate ≤ 0xFFFF)
    (hf : reload_factor H s = f) (hf2 : f ≤ 2) :
    ∃ t : Nat, GetTicksBetweenTransfers H s = (t : Int) ∧
      s.m_baud_rate * multiplierOf f < 4294967296 ∧
      t = max (s.m_baud_rate * multiplierOf f - s.m_baud_rate * multiplierOf f % 2)
        (multiplierOf f) ∧
      multiplierOf f ≤ t ∧ (t % 2 = 0 ∨ t = multiplierOf f) := by
  have hm : mul_factors.getD f 0 = multiplierOf f ∧
      (multiplierOf f = 1 ∨ multiplierOf f = 16 ∨ multiplierOf f = 64) := by
    interval_cases f <;> simp [mul_factors, multiplierOf]
  obtain ⟨hm1, hm2⟩ := hm
  have hlt : s.m_baud_rate * multiplierOf f < 4294967296 := by
    rcases hm2 with h | h | h <;> rw [h] <;> omega
  have hmpos : 1 ≤ multiplierOf f := by omega
  refine ⟨max (s.m_baud_rate * multiplierOf f - s.m_baud_rate * multiplierOf f % 2)
    (multiplierOf f), ?_, hlt, rfl, le_max_right _ _, ?_⟩
  · unfold GetTicksBetweenTransfers
    simp only [hf, hm1, wrap32, Nat.mod_eq_of_lt hlt, and_clear_lowest _ hlt]
    unfold toTickCount
    have hb : max (s.m_baud_rate * multiplierOf f - s.m_baud_rate * multiplierOf f % 2)
        (multiplierOf f) < 2147483648 := by
      rcases hm2 with h | h | h <;> rw [h] <;> omega
    rw [Nat.mod_eq_of_lt (by omega), if_pos hb]
  · rcases max_cases (s.m_baud_rate * multiplierOf f - s.m_baud_rate * multiplierOf f % 2)
      (multiplierOf f) with ⟨h, _⟩ | ⟨h, _⟩
    · left; rw [h]; omega
    · right; exact h

theorem C3_ticks_between_transfers_witness :
    ∃ t : Nat, GetTicksBetweenTransfers psxHeader tickSample = (t : Int) ∧
      tickSample.m_baud_rate * multiplierOf 1 < 4294967296 ∧
      t = max (tickSample.m_baud_rate * multiplierOf 1 -
        tickSample.m_baud_rate * multiplierOf 1 % 2) (multiplierOf 1) ∧
      multiplierOf 1 ≤ t ∧ (t % 2 = 0 ∨ t = multiplierOf 1) :=
  C3_ticks_between_transfers psxHeader tickSample 1 (by decide) (by decide) (by decide)
    (by decide)

/-! ## C4: capacity of the receive FIFO -/


theorem writeCtrl_m_data_in (H : Header) (v : Nat) (s : State) :
    (writeCtrl H v s).m_data_in = s.m_data_in ∨ (writeCtrl H v s).m_data_in = [] := by
  unfold writeCtrl
  dsimp only
  split_ifs <;> simp [SoftReset, ackStatus]

/-- C4: the bound `size ≤ 8` on the receive FIFO is preserved by every operation
(soft reset, register read and write at any offset and value with or without a
due transfer, an unframed tick, a framed tick draining whatever frames the
connection holds), and every operation completes, that is no `Push` meets a
queue that already holds 8 bytes. -/
theorem C4_fifo_capacity (H : Header) (op : Op) (s : State) (h : s.m_data_in.length ≤ 8) :
    ∃ s1, step H op s = some s1 ∧ s1.m_data_in.length ≤ 8 := by
  cases op with
  | SoftReset => exact ⟨_, rfl, by simp [SoftReset]⟩
  | ReadRegister offset due =>
    obtain ⟨s1, h1, h2⟩ := InvokeEarly_total H due s h
    simp only [step, ReadRegister]
    split <;> simp [h1, h2, h]
  | WriteRegister offset value due =>
    obtain ⟨s1, h1, h2⟩ := InvokeEarly_total H due s h
    simp only [step, WriteRegister]
    split
    · simp [h1, h2]
    · simp only [h1, Option.map_some']
      refine ⟨_, rfl, ?_⟩
      rcases writeCtrl_m_data_in H value s1 with h3 | h3 <;> rw [h3]
      · exact h2
      · simp
    · exact ⟨_, rfl, h⟩
    · exact ⟨_, rfl, h⟩
    · exact ⟨_, rfl, h⟩
  | TransferWithoutSync => exact TransferWithoutSync_total H s h
  | TransferWithSync => exact TransferWithSync_total H s h

theorem C4_fifo_capacity_witness :
    ∃ s1, step psxHeader .TransferWithoutSync sampleState = some s1 ∧ s1.m_data_in.length ≤ 8 :=
  C4_fifo_capacity psxHeader .TransferWithoutSync sampleState (by decide)

/-! ## C5: unframed receive -/


theorem Read_one_cons (c : SIOConnection) (b : Nat) (rest : List Nat) (hrx : c.rx = b :: rest) :
    c.Read 1 0 = ([b], { c with rx := rest }) := by
  simp [SIOConnection.Read, hrx]

theorem receiveWithoutSync_cons (H : Header) (s : State) (c : SIOConnection) (b : Nat)
    (rest : List Nat) (hen : bitGet s.m_ctrl (H.ctrl .RXEN) = true) (hrx : c.rx = b :: rest)
    (h : s.m_data_in.length ≤ 8) :
    receiveWithoutSync H s c =
      some (
        (if bitGet s.m_ctrl (H.ctrl .RXINTEN) then
          SetInterrupt H { s with
            m_data_in := (if s.m_data_in.length = 8 then s.m_data_in.tail else s.m_data_in) ++ [b],
            m_stat := if s.m_data_in.length = 8 then bitSet s.m_stat (H.stat .RXFIFOOVERRUN) true
              else s.m_stat }
        else { s with
            m_data_in := (if s.m_data_in.length = 8 then s.m_data_in.tail else s.m_data_in) ++ [b],
            m_stat := if s.m_data_in.length = 8 then bitSet s.m_stat (H.stat .RXFIFOOVERRUN) true
              else s.m_stat }),
        { c with rx := rest }) := by
  unfold receiveWithoutSync
  rw [if_pos hen, Read_one_cons c b rest hrx]
  dsimp only
  by_cases h8 : s.m_data_in.length = 8
  · have hf : s.m_data_in.IsFull = true := by simp [FIFOQueue.IsFull, CAPACITY, h8]
    rw [if_pos hf]
    cases hq : s.m_data_in with
    | nil => rw [hq] at h8; simp at h8
    | cons a t =>
      rw [hq] at h8
      have ht : t.length < 8 := by simp at h8; omega
      simp [FIFOQueue.RemoveOne, Push_of_lt t b ht, h8]
  · have hf : ¬ s.m_data_in.IsFull = true := by simp [FIFOQueue.IsFull, CAPACITY, h8]
    rw [if_neg hf]
    simp [Push_of_lt _ b (by omega : s.m_data_in.length < 8), h8]


/-- C5: on an unframed tick with an established connection, RXEN set and a byte
`b` delivered, the FIFO becomes the old FIFO (without its oldest entry when it
held 8 bytes) followed by `b`; RXFIFOOVERRUN is set when the old FIFO was full
and unchanged otherwise; the receive issues one interrupt request exactly when
RXINTEN is set (the only other request of the tick is the one of a transmit with
TXINTEN), INTR is latched when RXINTEN is set and unchanged when neither
interrupt is due. -/
theorem C5_unframed_evict_oldest (H : Header) (hH : H.WF) (s : State) (c : SIOConnection)
    (b : Nat) (rest : List Nat) (hc : s.m_connection = some c) (hconn : c.IsConnected = true)
    (hen : bitGet s.m_ctrl (H.ctrl .RXEN) = true) (hrx : c.rx = b :: rest)
    (h : s.m_data_in.length ≤ 8) :
    ∃ s1, TransferWithoutSync H s = some s1 ∧
      s1.m_data_in = (if s.m_data_in.length = 8 then s.m_data_in.tail else s.m_data_in) ++ [b] ∧
      bitGet s1.m_stat (H.stat .RXFIFOOVERRUN) =
        (if s.m_data_in.length = 8 then true else bitGet s.m_stat (H.stat .RXFIFOOVERRUN)) ∧
      s1.irq_requests = s.irq_requests + (if bitGet s.m_ctrl (H.ctrl .RXINTEN) then 1 else 0) +
        (if txInterrupt H s then 1 else 0) ∧
      (bitGet s.m_ctrl (H.ctrl .RXINTEN) = true → bitGet s1.m_stat (H.stat .INTR) = true) ∧
      (bitGet s.m_ctrl (H.ctrl .RXINTEN) = false → txInterrupt H s = false →
        bitGet s1.m_stat (H.stat .INTR) = bitGet s.m_stat (H.stat .INTR)) := by
  have hr := receiveWithoutSync_cons H (setInputLevels H s true) c b rest hen hrx h
  unfold TransferWithoutSync
  rw [hc]
  simp only [hconn, if_true, hr, Option.map_some']
  refine ⟨_, rfl, ?_⟩
  cases h1 : bitGet s.m_ctrl (H.ctrl .RXINTEN) <;> cases h2 : bitGet s.m_ctrl (H.ctrl .TXEN) <;>
    cases h3 : s.m_data_out_full <;> cases h4 : bitGet s.m_ctrl (H.ctrl .TXINTEN) <;>
    by_cases h8 : s.m_data_in.length = 8 <;>
    simp [setInputLevels, sendWithoutSync, SetInterrupt, txInterrupt, h1, h2, h3, h4, h8,
      UpdateTXRX_m_stat, bitGet_bitSet, hH.stat_eq_iff]

theorem C5_unframed_evict_oldest_witness :
    ∃ s1, TransferWithoutSync psxHeader sampleState = some s1 ∧
      s1.m_data_in = (if sampleState.m_data_in.length = 8 then sampleState.m_data_in.tail
        else sampleState.m_data_in) ++ [0x41] ∧
      bitGet s1.m_stat (psxHeader.stat .RXFIFOOVERRUN) =
        (if sampleState.m_data_in.length = 8 then true
          else bitGet sampleState.m_stat (psxHeader.stat .RXFIFOOVERRUN)) ∧
      s1.irq_requests = sampleState.irq_requests +
        (if bitGet sampleState.m_ctrl (psxHeader.ctrl .RXINTEN) then 1 else 0) +
        (if txInterrupt psxHeader sampleState then 1 else 0) ∧
      (bitGet sampleState.m_ctrl (psxHeader.ctrl .RXINTEN) = true →
        bitGet s1.m_stat (psxHeader.stat .INTR) = true) ∧
      (bitGet sampleState.m_ctrl (psxHeader.ctrl .RXINTEN) = false →
        txInterrupt psxHeader sampleState = false →
        bitGet s1.m_stat (psxHeader.stat .INTR) = bitGet sampleState.m_stat (psxHeader.stat .INTR)) :=
  C5_unframed_evict_oldest psxHeader (by decide) sampleState
    { connected := true, rx := [0x41, 0x42], tx := [] } 0x41 [0x42] rfl rfl (by decide) rfl
    (by decide)

/-! ## C6: framed receive -/


theorem has_data_iff (buf0 : Nat) : buf0 &&& STATE_HAS_DATA ≠ 0 ↔ bitGet buf0 0 = true := by
  unfold STATE_HAS_DATA bitGet
  rw [Nat.and_one_is_mod, Nat.testBit_zero]
  simp

theorem Read_two_pair (c : SIOConnection) (buf0 buf1 : Nat) (hrx : c.rx = [buf0, buf1]) :
    c.Read 2 2 = ([buf0, buf1], { c with rx := [] }) := by
  simp [SIOConnection.Read, hrx]

theorem Read_two_nil (c : SIOConnection) (hrx : c.rx = []) : c.Read 2 2 = ([], c) := by
  simp [SIOConnection.Read, hrx]

theorem drainLoop_single (H : Header) (s s1 : State) (c : SIOConnection) (buf0 buf1 : Nat)
    (hrx : c.rx = [buf0, buf1]) (hs1 : drainFrame H s buf0 buf1 = some s1) :
    drainLoop H (c.rx.length + 1) s c = some (s1, { c with rx := [] }) := by
  rw [hrx]
  simp only [List.length_cons, List.length_nil]
  unfold drainLoop
  rw [Read_two_pair c buf0 buf1 hrx]
  simp only [hs1, Option.some_bind]
  unfold drainLoop
  rw [Read_two_nil _ rfl]

theorem sendWithSync_overrun (H : Header) (hH : H.WF) (s : State) (c : SIOConnection) :
    bitGet (sendWithSync H s c).m_stat (H.stat .RXFIFOOVERRUN) =
      bitGet s.m_stat (H.stat .RXFIFOOVERRUN) := by
  unfold sendWithSync
  dsimp only
  split
  · split <;> simp [SetInterrupt, bitGet_bitSet, hH.stat_eq_iff]
  · rfl

/-- C6: with an established connection, draining a frame whose data flag (bit 0 of
byte 0) is set leaves a FIFO of 8 bytes exactly as it was and sets RXFIFOOVERRUN;
a FIFO of fewer than 8 bytes gets the data byte appended as its newest entry and
RXFIFOOVERRUN keeps its value.  This holds for the loop body on that frame and
for the whole framed tick when that frame is the one pending on the connection. -/
theorem C6_framed_drop_new (H : Header) (hH : H.WF) (s : State) (c : SIOConnection)
    (buf0 buf1 : Nat) (hc : s.m_connection = some c) (hconn : c.IsConnected = true)
    (hrx : c.rx = [buf0, buf1]) (hflag : bitGet buf0 0 = true) (h : s.m_data_in.length ≤ 8) :
    (∃ s1, drainFrame H s buf0 buf1 = some s1 ∧
      s1.m_data_in = (if s.m_data_in.length = 8 then s.m_data_in else s.m_data_in ++ [buf1]) ∧
      bitGet s1.m_stat (H.stat .RXFIFOOVERRUN) =
        (if s.m_data_in.length = 8 then true else bitGet s.m_stat (H.stat .RXFIFOOVERRUN))) ∧
    (∃ s2, TransferWithSync H s = some s2 ∧
      s2.m_data_in = (if s.m_data_in.length = 8 then s.m_data_in else s.m_data_in ++ [buf1]) ∧
      bitGet s2.m_stat (H.stat .RXFIFOOVERRUN) =
        (if s.m_data_in.length = 8 then true else bitGet s.m_stat (H.stat .RXFIFOOVERRUN))) := by
  have hd : buf0 &&& STATE_HAS_DATA ≠ 0 := (has_data_iff buf0).2 hflag
  have hbody : ∃ s1, drainFrame H s buf0 buf1 = some s1 ∧
      s1.m_data_in = (if s.m_data_in.length = 8 then s.m_data_in else s.m_data_in ++ [buf1]) ∧
      bitGet s1.m_stat (H.stat .RXFIFOOVERRUN) =
        (if s.m_data_in.length = 8 then true else bitGet s.m_stat (H.stat .RXFIFOOVERRUN)) := by
    unfold drainFrame
    rw [if_pos hd]
    by_cases h8 : s.m_data_in.length = 8
    · have hf : s.m_data_in.IsFull = true := by simp [FIFOQueue.IsFull, CAPACITY, h8]
      rw [if_pos hf]
      refine ⟨_, rfl, ?_⟩
      cases h1 : bitGet s.m_ctrl (H.ctrl .RXINTEN) <;>
        simp [h1, h8, SetInterrupt, bitGet_bitSet, hH.stat_eq_iff]
    · have hf : ¬ s.m_data_in.IsFull = true := by simp [FIFOQueue.IsFull, CAPACITY, h8]
      rw [if_neg hf, Push_of_lt _ buf1 (by omega)]
      refine ⟨_, rfl, ?_⟩
      cases h1 : bitGet s.m_ctrl (H.ctrl .RXINTEN) <;>
        simp [h1, h8, SetInterrupt, bitGet_bitSet, hH.stat_eq_iff]
  refine ⟨hbody, ?_⟩
  obtain ⟨s1, hs1, hq, ho⟩ := hbody
  have hhas : c.HasData = true := by simp [SIOConnection.HasData, hrx]
  unfold TransferWithSync
  rw [hc]
  simp only [hconn, hhas, Bool.not_true, Bool.false_eq_true, if_false, if_true,
    drainLoop_single H s s1 c buf0 buf1 hrx hs1, Option.map_some']
  refine ⟨_, rfl, ?_, ?_⟩
  · rw [sendWithSync_m_data_in]; exact hq
  · rw [sendWithSync_overrun H hH]; exact ho

theorem C6_framed_drop_new_witness :
    (∃ s1, drainFrame psxHeader framedSample 5 0x7F = some s1 ∧
      s1.m_data_in = (if framedSample.m_data_in.length = 8 then framedSample.m_data_in
        else framedSample.m_data_in ++ [0x7F]) ∧
      bitGet s1.m_stat (psxHeader.stat .RXFIFOOVERRUN) =
        (if framedSample.m_data_in.length = 8 then true
          else bitGet framedSample.m_stat (psxHeader.stat .RXFIFOOVERRUN))) ∧
    (∃ s2, TransferWithSync psxHeader framedSample = some s2 ∧
      s2.m_data_in = (if framedSample.m_data_in.length = 8 then framedSample.m_data_in
        else framedSample.m_data_in ++ [0x7F]) ∧
      bitGet s2.m_stat (psxHeader.stat .RXFIFOOVERRUN) =
        (if framedSample.m_data_in.length = 8 then true
          else bitGet framedSample.m_stat (psxHeader.stat .RXFIFOOVERRUN))) :=
  C6_framed_drop_new psxHeader (by decide) framedSample
    { connected := true, rx := [5, 0x7F], tx := [] } 5 0x7F rfl rfl rfl (by decide) (by decide)

/-! ## C7: data read -/


theorem Peek_lt (q : FIFOQueue) (k : Nat) (hb : ∀ x ∈ q, x < 256) : q.Peek k < 256 := by
  unfold FIFOQueue.Peek
  by_cases hk : k < q.length
  · rw [List.getD_eq_getElem _ _ hk]
    exact hb _ (List.getElem_mem hk)
  · rw [List.getD_eq_default _ _ (by omega)]
    decide

theorem byte_testBit_high (x j : Nat) (hx : x < 256) (hj : 8 ≤ j) : x.testBit j = false := by
  apply Nat.testBit_lt_two_pow
  calc x < 2 ^ 8 := hx
    _ ≤ 2 ^ j := Nat.pow_le_pow_right (by decide) hj

theorem testBit_wrap32_shift (x k i : Nat) :
    (wrap32 (ZeroExtend32 x <<< k)).testBit i =
      (decide (i < 32) && (decide (k ≤ i) && x.testBit (i - k))) := by
  unfold wrap32 ZeroExtend32
  rw [show (4294967296 : Nat) = 2 ^ 32 from rfl, Nat.testBit_mod_two_pow, Nat.testBit_shiftLeft]

theorem testBit_dataCase1 (q : FIFOQueue) (res i : Nat) :
    (dataCase1 q res).testBit i = (res.testBit i ||
      (decide (i < 32) && (decide (16 ≤ i) && (q.Peek 0).testBit (i - 16)))) := by
  unfold dataCase1
  rw [Nat.testBit_or, testBit_wrap32_shift]

theorem testBit_dataCase2 (q : FIFOQueue) (res i : Nat) :
    (dataCase2 q res).testBit i = (res.testBit i ||
      (decide (i < 32) && (decide (16 ≤ i) && (q.Peek 1).testBit (i - 16))) ||
      (decide (i < 32) && (decide (16 ≤ i) && (q.Peek 0).testBit (i - 16)))) := by
  unfold dataCase2
  rw [testBit_dataCase1, Nat.testBit_or, testBit_wrap32_shift]

theorem testBit_dataCase3 (q : FIFOQueue) (res i : Nat) :
    (dataCase3 q res).testBit i = (res.testBit i ||
      (decide (i < 32) && (decide (16 ≤ i) && (q.Peek 2).testBit (i - 16))) ||
      (decide (i < 32) && (decide (16 ≤ i) && (q.Peek 1).testBit (i - 16))) ||
      (decide (i < 32) && (decide (16 ≤ i) && (q.Peek 0).testBit (i - 16)))) := by
  unfold dataCase3
  rw [testBit_dataCase2, Nat.testBit_or, testBit_wrap32_shift]

theorem testBit_dataCase4 (q : FIFOQueue) (i : Nat) :
    (dataCase4 q).testBit i = (
      (decide (i < 32) && (decide (24 ≤ i) && (q.Peek 3).testBit (i - 24))) ||
      (decide (i < 32) && (decide (16 ≤ i) && (q.Peek 2).testBit (i - 16))) ||
      (decide (i < 32) && (decide (16 ≤ i) && (q.Peek 1).testBit (i - 16))) ||
      (decide (i < 32) && (decide (16 ≤ i) && (q.Peek 0).testBit (i - 16)))) := by
  unfold dataCase4
  rw [testBit_dataCase3, testBit_wrap32_shift]

theorem packDataIn_cases (q : FIFOQueue) (h1 : 1 ≤ q.length) (h7 : q.length ≤ 7) :
    (q.length = 1 ∧ packDataIn q = dataCase1 q 0) ∨ (q.length = 2 ∧ packDataIn q = dataCase2 q 0) ∨
    (q.length = 3 ∧ packDataIn q = dataCase3 q 0) ∨
    (4 ≤ q.length ∧ packDataIn q = dataCase4 q) := by
  unfold packDataIn FIFOQueue.GetSize
  have : q.length = 1 ∨ q.length = 2 ∨ q.length = 3 ∨ q.length = 4 ∨ q.length = 5 ∨
      q.length = 6 ∨ q.length = 7 := by omega
  rcases this with h | h | h | h | h | h | h <;> simp [h]

/-- C7 as stated fails: with the four bytes 0x12, 0x34, 0x56, 0x80 queued the data
read returns a word whose bits 24-31 hold 0x80. -/
theorem C7_data_read_low24_counterexample :
    readSample.m_data_in ≠ [] ∧
    ∃ r s1, ReadRegister psxHeader 0x00 false readSample = some (r, s1) ∧
      ¬ PacksLow24 readSample.m_data_in r := by
  refine ⟨by decide, _, _, rfl, ?_⟩
  decide

/-- C7 (amended): with 1 to 7 bytes queued (each a byte) and no transfer due, the
data read returns a 32-bit word whose bits 0-15 are zero, whose bits 24-31 are
zero when fewer than 4 bytes are queued and equal byte 3 when 4 to 7 bytes are
queued, and in which every set bit of byte 0 appears in bits 16-23; the state is
the old one with the derived status bits recomputed. -/
theorem C7_data_read_packing (H : Header) (s : State) (h1 : 1 ≤ s.m_data_in.length)
    (h7 : s.m_data_in.length ≤ 7) (hb : ∀ x ∈ s.m_data_in, x < 256) :
    ∃ r, ReadRegister H 0x00 false s = some (r, UpdateTXRX H s) ∧ r < 4294967296 ∧
      (∀ i, i < 16 → r.testBit i = false) ∧
      (∀ i, i < 8 → r.testBit (24 + i) =
        (decide (4 ≤ s.m_data_in.length) && (s.m_data_in.Peek 3).testBit i)) ∧
      (∀ i, i < 8 → (s.m_data_in.Peek 0).testBit i = true → r.testBit (16 + i) = true) := by
  refine ⟨packDataIn s.m_data_in, by simp [ReadRegister, InvokeEarly], ?_, ?_, ?_, ?_⟩
  · rw [show (4294967296 : Nat) = 2 ^ 32 from rfl]
    apply Nat.lt_pow_two_of_testBit
    intro i hi
    have hi2 : ¬ i < 32 := by omega
    rcases packDataIn_cases _ h1 h7 with ⟨_, h⟩ | ⟨_, h⟩ | ⟨_, h⟩ | ⟨_, h⟩ <;> rw [h] <;>
      simp [testBit_dataCase1, testBit_dataCase2, testBit_dataCase3, testBit_dataCase4, hi2]
  · intro i hi
    have hi2 : ¬ 16 ≤ i := by omega
    have hi3 : ¬ 24 ≤ i := by omega
    rcases packDataIn_cases _ h1 h7 with ⟨_, h⟩ | ⟨_, h⟩ | ⟨_, h⟩ | ⟨_, h⟩ <;> rw [h] <;>
      simp [testBit_dataCase1, testBit_dataCase2, testBit_dataCase3, testBit_dataCase4, hi2, hi3]
  · intro i hi
    have e0 := byte_testBit_high _ (24 + i - 16) (Peek_lt s.m_data_in 0 hb) (by omega)
    have e1 := byte_testBit_high _ (24 + i - 16) (Peek_lt s.m_data_in 1 hb) (by omega)
    have e2 := byte_testBit_high _ (24 + i - 16) (Peek_lt s.m_data_in 2 hb) (by omega)
    have hi2 : 24 + i < 32 := by omega
    rcases packDataIn_cases _ h1 h7 with ⟨hl, h⟩ | ⟨hl, h⟩ | ⟨hl, h⟩ | ⟨hl, h⟩ <;> rw [h] <;>
      simp [testBit_dataCase1, testBit_dataCase2, testBit_dataCase3, testBit_dataCase4, hi2, e0,
        e1, e2, hl]
  · intro i hi hbit
    have hi2 : 16 + i < 32 := by omega
    rcases packDataIn_cases _ h1 h7 with ⟨_, h⟩ | ⟨_, h⟩ | ⟨_, h⟩ | ⟨_, h⟩ <;> rw [h] <;>
      simp [testBit_dataCase1, testBit_dataCase2, testBit_dataCase3, testBit_dataCase4, hi2, hbit]

theorem C7_data_read_packing_witness :
    ∃ r, ReadRegister psxHeader 0x00 false readSample = some (r, UpdateTXRX psxHeader readSample) ∧
      r < 4294967296 ∧
      (∀ i, i < 16 → r.testBit i = false) ∧
      (∀ i, i < 8 → r.testBit (24 + i) =
        (decide (4 ≤ readSample.m_data_in.length) && (readSample.m_data_in.Peek 3).testBit i)) ∧
      (∀ i, i < 8 → (readSample.m_data_in.Peek 0).testBit i = true → r.testBit (16 + i) = true) :=
  C7_data_read_packing psxHeader readSample (by decide) (by decide) (by decide)

/-! ## C8, C9: data write and unknown offsets -/


/-- C8: with no transfer due, a data write stores the low byte of the value in the
transmit slot and marks it full whether or not it was full before, leaves TXRDY
and TXDONE false, and leaves control, mode, baud rate and the receive FIFO
unchanged. -/
theorem C8_data_write (H : Header) (hH : H.WF) (s : State) (v : Nat) :
    ∃ s1, WriteRegister H 0x00 v false s = some s1 ∧
      s1.m_data_out = v % 256 ∧ s1.m_data_out_full = true ∧
      bitGet s1.m_stat (H.stat .TXRDY) = false ∧ bitGet s1.m_stat (H.stat .TXDONE) = false ∧
      s1.m_ctrl = s.m_ctrl ∧ s1.m_mode = s.m_mode ∧ s1.m_baud_rate = s.m_baud_rate ∧
      s1.m_data_in = s.m_data_in := by
  refine ⟨UpdateTXRX H { s with m_data_out := Truncate8 v, m_data_out_full := true },
    by simp [WriteRegister, InvokeEarly], ?_⟩
  simp [Truncate8, UpdateTXRX_m_stat, bitGet_bitSet, hH.stat_eq_iff]

theorem C8_data_write_witness :
    ∃ s1, WriteRegister psxHeader 0x00 0x1234 false sampleState = some s1 ∧
      s1.m_data_out = 0x1234 % 256 ∧ s1.m_data_out_full = true ∧
      bitGet s1.m_stat (psxHeader.stat .TXRDY) = false ∧
      bitGet s1.m_stat (psxHeader.stat .TXDONE) = false ∧
      s1.m_ctrl = sampleState.m_ctrl ∧ s1.m_mode = sampleState.m_mode ∧
      s1.m_baud_rate = sampleState.m_baud_rate ∧ s1.m_data_in = sampleState.m_data_in :=
  C8_data_write psxHeader (by decide) sampleState 0x1234

/-- C9: a read at an offset outside {0x00, 0x04, 0x08, 0x0A, 0x0E} returns
0xFFFFFFFF and the unchanged state; a write at an offset outside
{0x00, 0x08, 0x0A, 0x0E} (the status offset 0x04 included) returns the unchanged
state for every value; neither runs a transfer step, even when one is due. -/
theorem C9_unknown_offsets (H : Header) (s : State) (offset value : Nat) (due : Bool) :
    (offset ≠ 0x00 → offset ≠ 0x04 → offset ≠ 0x08 → offset ≠ 0x0A → offset ≠ 0x0E →
      ReadRegister H offset due s = some (4294967295, s)) ∧
    (offset ≠ 0x00 → offset ≠ 0x08 → offset ≠ 0x0A → offset ≠ 0x0E →
      WriteRegister H offset value due s = some s) := by
  constructor
  · intro h0 h4 h8 hA hE
    unfold ReadRegister
    split <;> first | rfl | contradiction
  · intro h0 h8 hA hE
    unfold WriteRegister
    split <;> first | rfl | contradiction

theorem C9_unknown_offsets_witness :
    ReadRegister psxHeader 0x02 true sampleState = some (4294967295, sampleState) ∧
    WriteRegister psxHeader 0x04 0xFFFF true sampleState = some sampleState :=
  ⟨(C9_unknown_offsets psxHeader sampleState 0x02 0 true).1 (by decide) (by decide) (by decide)
      (by decide) (by decide),
    (C9_unknown_offsets psxHeader sampleState 0x04 0xFFFF true).2 (by decide) (by decide)
      (by decide) (by decide)⟩

/-! ## C10: unframed transmit -/


theorem Read_connected (c : SIOConnection) (n m : Nat) :
    (c.Read n m).2.connected = c.connected ∧ (c.Read n m).2.tx = c.tx := by
  unfold SIOConnection.Read
  split <;> simp

theorem receiveWithoutSync_frame (H : Header) (s s1 : State) (c c1 : SIOConnection)
    (h : receiveWithoutSync H s c = some (s1, c1)) :
    s1.m_ctrl = s.m_ctrl ∧ s1.m_data_out = s.m_data_out ∧
      s1.m_data_out_full = s.m_data_out_full ∧ c1.connected = c.connected ∧ c1.tx = c.tx := by
  have hr := Read_connected c 1 0
  unfold receiveWithoutSync at h
  split at h
  · split at h
    · rename_i data_in rest c2 heq
      rw [heq] at hr
      by_cases hf : s.m_data_in.IsFull = true
      · rw [if_pos hf] at h
        simp only [Option.bind_eq_some, Option.map_eq_some', Prod.mk.injEq] at h
        obtain ⟨s2, ⟨q, _, hs2⟩, q2, _, hs1, hc1⟩ := h
        subst hs2 hc1
        rw [← hs1]
        refine ⟨?_, ?_, ?_, hr.1, hr.2⟩ <;> (dsimp only; split <;> rfl)
      · rw [if_neg hf] at h
        simp only [Option.some_bind, Option.map_eq_some', Prod.mk.injEq] at h
        obtain ⟨q2, _, hs1, hc1⟩ := h
        subst hc1
        rw [← hs1]
        refine ⟨?_, ?_, ?_, hr.1, hr.2⟩ <;> (dsimp only; split <;> rfl)
    · rename_i c2 heq
      rw [heq] at hr
      simp only [Option.some.injEq, Prod.mk.injEq] at h
      obtain ⟨h1, h2⟩ := h
      subst h1 h2
      exact ⟨rfl, rfl, rfl, hr.1, hr.2⟩
  · simp only [Option.some.injEq, Prod.mk.injEq] at h
    obtain ⟨h1, h2⟩ := h
    subst h1 h2
    exact ⟨rfl, rfl, rfl, rfl, rfl⟩

theorem sendWithoutSync_frame (H : Header) (s : State) (c : SIOConnection) :
    (sendWithoutSync H s c).1.m_ctrl = s.m_ctrl ∧
      (sendWithoutSync H s c).2.connected = c.connected := by
  unfold sendWithoutSync
  split
  · dsimp only; split <;> exact ⟨rfl, rfl⟩
  · exact ⟨rfl, rfl⟩

theorem TransferWithoutSync_frame (H : Header) (s s1 : State) (c : SIOConnection)
    (hc : s.m_connection = some c) (h : TransferWithoutSync H s = some s1) :
    s1.m_ctrl = s.m_ctrl ∧ ∃ c1, s1.m_connection = some c1 ∧ c1.connected = c.connected := by
  unfold TransferWithoutSync at h
  rw [hc] at h
  dsimp only at h
  split at h
  · simp only [Option.map_eq_some'] at h
    obtain ⟨⟨s2, c2⟩, hr, hs1⟩ := h
    have hf := receiveWithoutSync_frame H _ s2 c c2 hr
    have hs := sendWithoutSync_frame H s2 c2
    rw [← hs1]
    refine ⟨?_, _, rfl, ?_⟩
    · simp only [UpdateTXRX_m_ctrl]; rw [hs.1, hf.1]; rfl
    · rw [hs.2, hf.2.2.2.1]
  · simp only [Option.some.injEq] at h
    rw [← h]
    exact ⟨rfl, c, hc, rfl⟩

theorem drainFrame_frame (H : Header) (s s1 : State) (buf0 buf1 : Nat)
    (h : drainFrame H s buf0 buf1 = some s1) : s1.m_ctrl = s.m_ctrl := by
  unfold drainFrame at h
  simp only [Option.map_eq_some'] at h
  obtain ⟨s2, h2, hs1⟩ := h
  rw [← hs1]
  dsimp only
  split at h2
  · simp only [Option.map_eq_some'] at h2
    obtain ⟨s3, h3, hs2⟩ := h2
    have : s3.m_ctrl = s.m_ctrl := by
      split at h3
      · simp only [Option.some.injEq] at h3; rw [← h3]
      · simp only [Option.map_eq_some'] at h3
        obtain ⟨q, _, hq⟩ := h3
        rw [← hq]
    rw [← hs2]
    split <;> simpa [SetInterrupt] using this
  · simp only [Option.some.injEq] at h2
    rw [← h2]

theorem drainLoop_frame (H : Header) (fuel : Nat) : ∀ (s s1 : State) (c c1 : SIOConnection),
    drainLoop H fuel s c = some (s1, c1) →
    s1.m_ctrl = s.m_ctrl ∧ c1.connected = c.connected := by
  induction fuel with
  | zero => intro s s1 c c1 h; simp [drainLoop] at h
  | succ n ih =>
    intro s s1 c c1 h
    have hr := Read_connected c 2 2
    unfold drainLoop at h
    split at h
    · rename_i buf0 buf1 rest c2 heq
      rw [heq] at hr
      simp only [Option.bind_eq_some] at h
      obtain ⟨s2, h2, h3⟩ := h
      have := ih s2 s1 c2 c1 h3
      exact ⟨by rw [this.1, drainFrame_frame H s s2 buf0 buf1 h2], by rw [this.2]; exact hr.1⟩
    · rename_i l c2 _ heq
      rw [heq] at hr
      simp only [Option.some.injEq, Prod.mk.injEq] at h
      rw [← h.1, ← h.2]
      exact ⟨rfl, hr.1⟩

theorem sendWithSync_frame (H : Header) (s : State) (c : SIOConnection) :
    (sendWithSync H s c).m_ctrl = s.m_ctrl ∧
      ∃ c1, (sendWithSync H s c).m_connection = some c1 ∧ c1.connected = c.connected := by
  unfold sendWithSync
  dsimp only
  split
  · split <;> exact ⟨rfl, _, rfl, rfl⟩
  · exact ⟨rfl, _, rfl, rfl⟩

theorem TransferWithSync_frame (H : Header) (s s1 : State) (c : SIOConnection)
    (hc : s.m_connection = some c) (h : TransferWithSync H s = some s1) :
    s1.m_ctrl = s.m_ctrl ∧ ∃ c1, s1.m_connection = some c1 ∧ c1.connected = c.connected := by
  unfold TransferWithSync at h
  rw [hc] at h
  dsimp only at h
  split at h
  · simp only [Option.some.injEq] at h
    rw [← h]
    exact ⟨rfl, c, hc, rfl⟩
  · simp only [Option.map_eq_some'] at h
    obtain ⟨⟨s2, c2⟩, hr, hs1⟩ := h
    have hs := sendWithSync_frame H s2 c2
    rw [← hs1]
    split at hr
    · have hd := drainLoop_frame H _ s s2 c c2 hr
      obtain ⟨h1, c3, h3, h4⟩ := hs
      exact ⟨by rw [h1, hd.1], c3, h3, by rw [h4, hd.2]⟩
    · simp only [Option.some.injEq, Prod.mk.injEq] at hr
      obtain ⟨h1, h2⟩ := hr
      subst h1 h2
      exact hs

theorem InvokeEarly_frame (H : Header) (due : Bool) (s s1 : State) (c : SIOConnection)
    (hc : s.m_connection = some c) (h : InvokeEarly H due s = some s1) :
    s1.m_ctrl = s.m_ctrl ∧ ∃ c1, s1.m_connection = some c1 ∧ c1.connected = c.connected := by
  unfold InvokeEarly at h
  split at h
  · unfold TransferEvent at h
    split at h
    · exact TransferWithSync_frame H s s1 c hc h
    · exact TransferWithoutSync_frame H s s1 c hc h
  · simp only [Option.some.injEq] at h
    rw [← h]
    exact ⟨rfl, c, hc, rfl⟩

theorem receiveWithoutSync_cts (H : Header) (hH : H.WF) (s s1 : State) (c c1 : SIOConnection)
    (h : receiveWithoutSync H s c = some (s1, c1)) :
    bitGet s1.m_stat (H.stat .CTSINPUTLEVEL) = bitGet s.m_stat (H.stat .CTSINPUTLEVEL) := by
  unfold receiveWithoutSync at h
  split at h
  · split at h
    · by_cases hf : s.m_data_in.IsFull = true
      · rw [if_pos hf] at h
        simp only [Option.bind_eq_some, Option.map_eq_some', Prod.mk.injEq] at h
        obtain ⟨s2, ⟨q, _, hs2⟩, q2, _, hs1, _⟩ := h
        subst hs2
        rw [← hs1]
        dsimp only
        split <;> simp [SetInterrupt, bitGet_bitSet, hH.stat_eq_iff]
      · rw [if_neg hf] at h
        simp only [Option.some_bind, Option.map_eq_some', Prod.mk.injEq] at h
        obtain ⟨q2, _, hs1, _⟩ := h
        rw [← hs1]
        dsimp only
        split <;> simp [SetInterrupt, bitGet_bitSet, hH.stat_eq_iff]
    · simp only [Option.some.injEq, Prod.mk.injEq] at h
      rw [← h.1]
  · simp only [Option.some.injEq, Prod.mk.injEq] at h
    rw [← h.1]

theorem sendWithoutSync_pending (H : Header) (s : State) (c : SIOConnection)
    (htx : bitGet s.m_ctrl (H.ctrl .TXEN) = true) (hfull : s.m_data_out_full = true) :
    sendWithoutSync H s c =
      (if bitGet s.m_ctrl (H.ctrl .TXINTEN) then SetInterrupt H { s with m_data_out_full := false }
        else { s with m_data_out_full := false }, c.Write [s.m_data_out]) := by
  unfold sendWithoutSync
  simp [htx, hfull]

theorem TransferWithoutSync_connected (H : Header) (s : State) (c : SIOConnection)
    (hc : s.m_connection = some c) (hconn : c.IsConnected = true) :
    TransferWithoutSync H s =
      (receiveWithoutSync H (setInputLevels H s true) c).map fun r =>
        UpdateTXRX H { (sendWithoutSync H r.1 r.2).1 with
          m_connection := some (sendWithoutSync H r.1 r.2).2 } := by
  unfold TransferWithoutSync
  rw [hc]
  dsimp only
  rw [if_pos hconn]

/-- C10: with an established connection and TXEN set, a data write of the byte `b`
followed by one unframed tick makes the tick issue exactly one connection write,
with the single byte `b` as payload, and leaves the transmit slot empty and TXRDY
true; when no transfer was due the register write itself issues no connection
write, so the write of `b` is the only one of the sequence. -/
theorem C10_unframed_transmit (H : Header) (hH : H.WF) (s : State) (c : SIOConnection)
    (b : Nat) (due : Bool) (hb : b < 256) (hc : s.m_connection = some c)
    (hconn : c.IsConnected = true) (htx : bitGet s.m_ctrl (H.ctrl .TXEN) = true)
    (h : s.m_data_in.length ≤ 8) :
    ∃ s1 s2 c1 c2, WriteRegister H 0x00 b due s = some s1 ∧
      TransferWithoutSync H s1 = some s2 ∧
      s1.m_connection = some c1 ∧ s2.m_connection = some c2 ∧
      c2.tx = c1.tx ++ [[b]] ∧ (due = false → c1.tx = c.tx) ∧
      s2.m_data_out_full = false ∧ bitGet s2.m_stat (H.stat .TXRDY) = true := by
  obtain ⟨s0, h0, hq0⟩ := InvokeEarly_total H due s h
  obtain ⟨hctrl, c1, hc1, hconn1⟩ := InvokeEarly_frame H due s s0 c hc h0
  have hconn2 : c1.IsConnected = true := by
    unfold SIOConnection.IsConnected; rw [hconn1]; exact hconn
  have hw : WriteRegister H 0x00 b due s =
      some (UpdateTXRX H { s0 with m_data_out := Truncate8 b, m_data_out_full := true }) := by
    simp [WriteRegister, h0]
  have htx0 : bitGet s0.m_ctrl (H.ctrl .TXEN) = true := by rw [hctrl]; exact htx
  have hdue : due = false → c1.tx = c.tx := by
    intro hd
    subst hd
    simp only [InvokeEarly, Bool.false_eq_true, if_false, Option.some.injEq] at h0
    subst h0
    rw [hc] at hc1
    simp only [Option.some.injEq] at hc1
    rw [hc1]
  obtain ⟨⟨s3, c3⟩, hr, _⟩ := receiveWithoutSync_total H (setInputLevels H
    (UpdateTXRX H { s0 with m_data_out := Truncate8 b, m_data_out_full := true }) true) c1 hq0
  obtain ⟨f1, f2, f3, f4, f5⟩ := receiveWithoutSync_frame H _ s3 c1 c3 hr
  have f6 := receiveWithoutSync_cts H hH _ s3 c1 c3 hr
  have hT8 : Truncate8 b = b := Nat.mod_eq_of_lt hb
  have g1 : bitGet s3.m_ctrl (H.ctrl .TXEN) = true := by rw [f1]; exact htx0
  have g2 : s3.m_data_out_full = true := by rw [f3]; rfl
  have g3 : s3.m_data_out = b := by rw [f2]; exact hT8
  have g4 : bitGet s3.m_stat (H.stat .CTSINPUTLEVEL) = true := by
    rw [f6]; simp [setInputLevels, bitGet_bitSet, hH.stat_eq_iff]
  have hT : TransferWithoutSync H
      (UpdateTXRX H { s0 with m_data_out := Truncate8 b, m_data_out_full := true }) =
      some (UpdateTXRX H { (sendWithoutSync H s3 c3).1 with
        m_connection := some (sendWithoutSync H s3 c3).2 }) := by
    rw [TransferWithoutSync_connected H
      (UpdateTXRX H { s0 with m_data_out := Truncate8 b, m_data_out_full := true }) c1 hc1 hconn2,
      hr]
    rfl
  rw [sendWithoutSync_pending H s3 c3 g1 g2] at hT
  refine ⟨_, _, c1, c3.Write [b], hw, hT, hc1, ?_, ?_, hdue, ?_, ?_⟩
  · simp [g3]
  · simp [SIOConnection.Write, f5]
  · simp only [UpdateTXRX_m_data_out_full]
    split <;> rfl
  · cases h5 : bitGet s3.m_ctrl (H.ctrl .TXINTEN) <;>
      simp [h5, SetInterrupt, UpdateTXRX_m_stat, bitGet_bitSet, hH.stat_eq_iff, g4]

theorem C10_unframed_transmit_witness :
    ∃ s1 s2 c1 c2, WriteRegister psxHeader 0x00 0x41 false ackSample = some s1 ∧
      TransferWithoutSync psxHeader s1 = some s2 ∧
      s1.m_connection = some c1 ∧ s2.m_connection = some c2 ∧
      c2.tx = c1.tx ++ [[0x41]] ∧
      (false = false → c1.tx = ({ connected := true, rx := [], tx := [] } : SIOConnection).tx) ∧
      s2.m_data_out_full = false ∧ bitGet s2.m_stat (psxHeader.stat .TXRDY) = true :=
  C10_unframed_transmit psxHeader (by decide) ackSample
    { connected := true, rx := [], tx := [] } 0x41 false (by decide) rfl rfl (by decide)
    (by decide)

/-! ## C11: disconnected tick -/


/-- C11: when no connection is attached or the connection is not established, a
tick of either protocol ends with both input-level mirrors false, leaves the
connection untouched (no read, no write), raises no interrupt (request count and
INTR latch unchanged) and leaves the receive FIFO and the transmit slot
unchanged, whatever the prior registers. -/
theorem C11_disconnected_tick (H : Header) (hH : H.WF) (s : State)
    (hdis : s.m_connection = none ∨ ∃ c, s.m_connection = some c ∧ c.IsConnected = false)
    (framed : Bool) :
    ∃ s1, (if framed then TransferWithSync H s else TransferWithoutSync H s) = some s1 ∧
      bitGet s1.m_stat (H.stat .CTSINPUTLEVEL) = false ∧
      bitGet s1.m_stat (H.stat .DTRINPUTLEVEL) = false ∧
      s1.m_connection = s.m_connection ∧ s1.irq_requests = s.irq_requests ∧
      bitGet s1.m_stat (H.stat .INTR) = bitGet s.m_stat (H.stat .INTR) ∧
      s1.m_data_in = s.m_data_in ∧ s1.m_data_out = s.m_data_out ∧
      s1.m_data_out_full = s.m_data_out_full := by
  have h1 : TransferWithSync H s = some (setInputLevels H s false) := by
    unfold TransferWithSync
    rcases hdis with h | ⟨c, h, hc⟩
    · rw [h]
    · rw [h]; simp [hc]
  have h2 : TransferWithoutSync H s = some (UpdateTXRX H (setInputLevels H s false)) := by
    unfold TransferWithoutSync
    rcases hdis with h | ⟨c, h, hc⟩
    · rw [h]
    · rw [h]; simp [hc]
  cases framed
  · refine ⟨_, by simpa using h2, ?_⟩
    simp [setInputLevels, UpdateTXRX_m_stat, bitGet_bitSet, hH.stat_eq_iff]
  · refine ⟨_, by simpa using h1, ?_⟩
    simp [setInputLevels, bitGet_bitSet, hH.stat_eq_iff]

theorem C11_disconnected_tick_witness :
    ∃ s1, (if true then TransferWithSync psxHeader disconnectedSample
        else TransferWithoutSync psxHeader disconnectedSample) = some s1 ∧
      bitGet s1.m_stat (psxHeader.stat .CTSINPUTLEVEL) = false ∧
      bitGet s1.m_stat (psxHeader.stat .DTRINPUTLEVEL) = false ∧
      s1.m_connection = disconnectedSample.m_connection ∧
      s1.irq_requests = disconnectedSample.irq_requests ∧
      bitGet s1.m_stat (psxHeader.stat .INTR) =
        bitGet disconnectedSample.m_stat (psxHeader.stat .INTR) ∧
      s1.m_data_in = disconnectedSample.m_data_in ∧
      s1.m_data_out = disconnectedSample.m_data_out ∧
      s1.m_data_out_full = disconnectedSample.m_data_out_full :=
  C11_disconnected_tick psxHeader (by decide) disconnectedSample
    (Or.inr ⟨{ connected := false, rx := [0x41, 0x42], tx := [] }, rfl, rfl⟩) true

/-! ## The framed drain as a fold over frames -/


theorem KeepsConfig.refl (s : State) : KeepsConfig s s := ⟨rfl, rfl, rfl, rfl, rfl, rfl⟩

theorem KeepsConfig.trans {s s1 s2 : State} (h1 : KeepsConfig s s1) (h2 : KeepsConfig s1 s2) :
    KeepsConfig s s2 := by
  unfold KeepsConfig at h1 h2 ⊢
  refine ⟨?_, ?_, ?_, ?_, ?_, ?_⟩
  · rw [h2.1, h1.1]
  · rw [h2.2.1, h1.2.1]
  · rw [h2.2.2.1, h1.2.2.1]
  · rw [h2.2.2.2.1, h1.2.2.2.1]
  · rw [h2.2.2.2.2.1, h1.2.2.2.2.1]
  · rw [h2.2.2.2.2.2, h1.2.2.2.2.2]

theorem and_flag_ne_zero (x k : Nat) : (x &&& 2 ^ k ≠ 0) ↔ bitGet x k = true := by
  unfold bitGet
  rw [Nat.and_two_pow]
  cases h : x.testBit k <;> simp [Nat.pos_iff_ne_zero]

theorem dtr_flag_iff (x : Nat) : decide (x &&& STATE_DTR_LEVEL ≠ 0) = bitGet x 1 := by
  have := and_flag_ne_zero x 1
  unfold STATE_DTR_LEVEL
  cases h : bitGet x 1 <;> simp_all

theorem cts_flag_iff (x : Nat) : decide (x &&& STATE_CTS_LEVEL ≠ 0) = bitGet x 2 := by
  have := and_flag_ne_zero x 2
  unfold STATE_CTS_LEVEL
  cases h : bitGet x 2 <;> simp_all

theorem drainLoop_eq (H : Header) (fuel : Nat) : ∀ (rx : List Nat) (s : State)
    (c : SIOConnection), c.rx = rx → rx.length < fuel →
    drainLoop H fuel s c =
      (drainAll H s (framesOf rx)).map fun s1 => (s1, { c with rx := leftover rx }) := by
  induction fuel with
  | zero => intro rx s c _ h; omega
  | succ n ih =>
    intro rx s c hrx hlen
    unfold drainLoop
    match rx, hrx, hlen with
    | [], hrx, _ =>
      have : c.Read 2 2 = ([], c) := by simp [SIOConnection.Read, hrx]
      rw [this]
      cases c
      simp_all [framesOf, drainAll, leftover]
    | [x], hrx, _ =>
      have : c.Read 2 2 = ([], c) := by simp [SIOConnection.Read, hrx]
      rw [this]
      cases c
      simp_all [framesOf, drainAll, leftover]
    | b0 :: b1 :: rest, hrx, hlen =>
      have : c.Read 2 2 = ([b0, b1], { c with rx := rest }) := by
        simp [SIOConnection.Read, hrx]
      rw [this]
      simp only [framesOf, drainAll, leftover, Option.map_bind]
      congr 1
      funext s1
      have hl : rest.length < n := by simp at hlen; omega
      rw [ih rest s1 { c with rx := rest } rfl hl]
      rfl


theorem take_take_append (n : Nat) (l r : List Nat) :
    ((l.take n) ++ r).take n = (l ++ r).take n := by
  by_cases h : l.length ≤ n
  · rw [List.take_of_length_le h]
  · have h1 : (l.take n).length = n := by rw [List.length_take]; omega
    rw [List.take_left' h1, List.take_append_of_le_length (by omega)]

theorem take_push (q : List Nat) (b : Nat) (h : q.length ≤ 8) :
    (q ++ [b]).take 8 = if q.length = 8 then q else q ++ [b] := by
  split
  · rename_i h8; exact List.take_left' h8
  · exact List.take_of_length_le (by simp; omega)

theorem drainFrame_spec (H : Header) (hH : H.WF) (s : State) (buf0 buf1 : Nat)
    (h : s.m_data_in.length ≤ 8) :
    ∃ s1, drainFrame H s buf0 buf1 = some s1 ∧
      s1.m_data_in = (s.m_data_in ++ (if bitGet buf0 0 then [buf1] else [])).take 8 ∧
      s1.irq_requests = s.irq_requests +
        (if bitGet buf0 0 && bitGet s.m_ctrl (H.ctrl .RXINTEN) then 1 else 0) ∧
      bitGet s1.m_stat (H.stat .DTRINPUTLEVEL) = bitGet buf0 1 ∧
      bitGet s1.m_stat (H.stat .CTSINPUTLEVEL) = bitGet buf0 2 ∧
      KeepsConfig s s1 ∧ s1.m_data_out_full = s.m_data_out_full ∧
      s1.m_connection = s.m_connection := by
  unfold drainFrame
  simp only [dtr_flag_iff, cts_flag_iff]
  by_cases hd : bitGet buf0 0 = true
  · rw [if_pos ((has_data_iff buf0).2 hd)]
    simp only [hd, if_true, Bool.true_and, take_push _ buf1 h]
    by_cases h8 : s.m_data_in.length = 8
    · have hf : s.m_data_in.IsFull = true := by simp [FIFOQueue.IsFull, CAPACITY, h8]
      rw [if_pos hf]
      refine ⟨_, rfl, ?_⟩
      cases h1 : bitGet s.m_ctrl (H.ctrl .RXINTEN) <;>
        simp [h1, h8, SetInterrupt, bitGet_bitSet, hH.stat_eq_iff, KeepsConfig]
    · have hf : ¬ s.m_data_in.IsFull = true := by simp [FIFOQueue.IsFull, CAPACITY, h8]
      rw [if_neg hf, Push_of_lt _ buf1 (by omega)]
      refine ⟨_, rfl, ?_⟩
      cases h1 : bitGet s.m_ctrl (H.ctrl .RXINTEN) <;>
        simp [h1, h8, SetInterrupt, bitGet_bitSet, hH.stat_eq_iff, KeepsConfig]
  · rw [if_neg (fun hc => hd ((has_data_iff buf0).1 hc))]
    refine ⟨_, rfl, ?_⟩
    simp [hd, bitGet_bitSet, hH.stat_eq_iff, KeepsConfig, List.take_of_length_le h]

theorem drainAll_spec (H : Header) (hH : H.WF) (fs : List (Nat × Nat)) : ∀ (s : State),
    s.m_data_in.length ≤ 8 →
    ∃ s1, drainAll H s fs = some s1 ∧
      s1.m_data_in = (s.m_data_in ++ dataBytes fs).take 8 ∧
      s1.irq_requests = s.irq_requests +
        (if bitGet s.m_ctrl (H.ctrl .RXINTEN) then (dataBytes fs).length else 0) ∧
      (∀ f, fs.getLast? = some f →
        bitGet s1.m_stat (H.stat .DTRINPUTLEVEL) = bitGet f.1 1 ∧
        bitGet s1.m_stat (H.stat .CTSINPUTLEVEL) = bitGet f.1 2) ∧
      (fs = [] → s1 = s) ∧
      KeepsConfig s s1 ∧ s1.m_data_out_full = s.m_data_out_full ∧
      s1.m_connection = s.m_connection := by
  induction fs with
  | nil =>
    intro s h
    exact ⟨s, rfl, by simp [dataBytes, List.take_of_length_le h], by simp [dataBytes],
      by simp, fun _ => rfl, KeepsConfig.refl s, rfl, rfl⟩
  | cons f fs ih =>
    intro s h
    obtain ⟨s1, e1, q1, i1, d1, c1, k1, o1, n1⟩ := drainFrame_spec H hH s f.1 f.2 h
    have hl1 : s1.m_data_in.length ≤ 8 := by rw [q1, List.length_take]; omega
    obtain ⟨s2, e2, q2, i2, l2, z2, k2, o2, n2⟩ := ih s1 hl1
    refine ⟨s2, by simp [drainAll, e1, e2], ?_, ?_, ?_, by simp, k1.trans k2, o2.trans o1,
      n2.trans n1⟩
    · rw [q2, q1, take_take_append]
      cases hb : bitGet f.1 0 <;> simp [dataBytes, hb]
    · rw [i2, i1, k1.1]
      cases hb : bitGet f.1 0
      · simp [dataBytes, hb]
      · cases hr : bitGet s.m_ctrl (H.ctrl .RXINTEN)
        · simp [dataBytes, hb]
        · simp only [dataBytes, hb, Bool.and_self, if_true, List.length_cons]
          omega
    · intro g hg
      cases fs with
      | nil =>
        simp at hg
        subst hg
        rw [z2 rfl]
        exact ⟨d1, c1⟩
      | cons f2 fs2 =>
        rw [List.getLast?_cons_cons] at hg
        exact l2 g hg



theorem isFull_iff (q : FIFOQueue) (h : q.length ≤ 8) : q.IsFull = !decide (q.length < 8) := by
  unfold FIFOQueue.IsFull CAPACITY
  by_cases h8 : q.length = 8
  · simp [h8]
  · have : q.length < 8 := by omega
    simp [h8, this]

theorem sendWithSync_spec (H : Header) (hH : H.WF) (s : State) (c : SIOConnection)
    (h : s.m_data_in.length ≤ 8) :
    (sendWithSync H s c).m_data_in = s.m_data_in ∧
    (sendWithSync H s c).m_data_out_full = false ∧
    (sendWithSync H s c).irq_requests = s.irq_requests +
      (if s.m_data_out_full && bitGet s.m_ctrl (H.ctrl .TXINTEN) then 1 else 0) ∧
    (sendWithSync H s c).m_connection = some (c.Write
      [outFlags s.m_data_in.length (bitGet s.m_ctrl (H.ctrl .DTROUTPUT)) s.m_data_out_full,
        if s.m_data_out_full then s.m_data_out else 0]) ∧
    bitGet (sendWithSync H s c).m_stat (H.stat .DTRINPUTLEVEL) =
      bitGet s.m_stat (H.stat .DTRINPUTLEVEL) ∧
    bitGet (sendWithSync H s c).m_stat (H.stat .CTSINPUTLEVEL) =
      bitGet s.m_stat (H.stat .CTSINPUTLEVEL) ∧
    KeepsConfig s (sendWithSync H s c) := by
  unfold sendWithSync outFlags
  rw [isFull_iff _ h]
  by_cases h8 : s.m_data_in.length < 8 <;> cases hd : bitGet s.m_ctrl (H.ctrl .DTROUTPUT) <;>
    cases hf : s.m_data_out_full <;> cases ht : bitGet s.m_ctrl (H.ctrl .TXINTEN) <;>
    simp [h8, hd, hf, ht, SetInterrupt, bitGet_bitSet, hH.stat_eq_iff, KeepsConfig,
      STATE_CTS_LEVEL, STATE_DTR_LEVEL, STATE_HAS_DATA]

theorem TransferWithSync_connected (H : Header) (s : State) (c : SIOConnection)
    (hc : s.m_connection = some c) (hconn : c.IsConnected = true) :
    TransferWithSync H s =
      (drainAll H s (framesOf c.rx)).map fun sd =>
        sendWithSync H sd { c with rx := leftover c.rx } := by
  unfold TransferWithSync
  rw [hc]
  simp only [hconn, Bool.not_true, Bool.false_eq_true, if_false]
  by_cases hd : c.HasData = true
  · rw [if_pos hd, drainLoop_eq H (c.rx.length + 1) c.rx s c rfl (by omega), Option.map_map]
    rfl
  · rw [if_neg hd]
    have hrx : c.rx = [] := by
      simpa [SIOConnection.HasData] using hd
    cases c
    simp_all [framesOf, drainAll, leftover]



theorem framed_tick_spec (H : Header) (hH : H.WF) (s : State) (c : SIOConnection)
    (hc : s.m_connection = some c) (hconn : c.IsConnected = true)
    (h : s.m_data_in.length ≤ 8) :
    ∃ s2, TransferWithSync H s = some s2 ∧
      s2.m_data_in = (s.m_data_in ++ dataBytes (framesOf c.rx)).take 8 ∧
      s2.m_data_out_full = false ∧
      s2.irq_requests = s.irq_requests +
        (if bitGet s.m_ctrl (H.ctrl .RXINTEN) then (dataBytes (framesOf c.rx)).length else 0) +
        (if s.m_data_out_full && bitGet s.m_ctrl (H.ctrl .TXINTEN) then 1 else 0) ∧
      s2.m_connection = some (SIOConnection.Write { c with rx := leftover c.rx }
        [outFlags s2.m_data_in.length (bitGet s.m_ctrl (H.ctrl .DTROUTPUT)) s.m_data_out_full,
          if s.m_data_out_full then s.m_data_out else 0]) ∧
      (∀ f, (framesOf c.rx).getLast? = some f →
        bitGet s2.m_stat (H.stat .DTRINPUTLEVEL) = bitGet f.1 1 ∧
        bitGet s2.m_stat (H.stat .CTSINPUTLEVEL) = bitGet f.1 2) ∧
      (framesOf c.rx = [] →
        bitGet s2.m_stat (H.stat .DTRINPUTLEVEL) = bitGet s.m_stat (H.stat .DTRINPUTLEVEL) ∧
        bitGet s2.m_stat (H.stat .CTSINPUTLEVEL) = bitGet s.m_stat (H.stat .CTSINPUTLEVEL)) ∧
      KeepsConfig s s2 := by
  obtain ⟨sd, e, q, i, l, z, k, o, n⟩ := drainAll_spec H hH (framesOf c.rx) s h
  have hl : sd.m_data_in.length ≤ 8 := by rw [q, List.length_take]; omega
  obtain ⟨a1, a2, a3, a4, a5, a6, a7⟩ :=
    sendWithSync_spec H hH sd { c with rx := leftover c.rx } hl
  refine ⟨_, by rw [TransferWithSync_connected H s c hc hconn, e]; rfl, ?_, a2, ?_, ?_, ?_, ?_,
    k.trans a7⟩
  · rw [a1, q]
  · rw [a3, i, o, k.1]
  · rw [a4, a1, o, k.1, k.2.2.2.1]
  · intro f hf
    rw [a5, a6]
    exact l f hf
  · intro hnil
    rw [a5, a6, z hnil]
    exact ⟨rfl, rfl⟩

/-! ## C12: framed receive scenario -/


/-- C12 as stated fails: with the frame 0b101, 0x7F pending and three bytes queued,
the framed tick (and already its draining step on that frame) appends 0x7F but
leaves the DTR-input-level mirror false; 0b101 carries the CTS flag, not DTR. -/
theorem C12_framed_scenario_dtr_counterexample :
    (∃ s1, drainFrame psxHeader scenarioSample 5 0x7F = some s1 ∧
      s1.m_data_in = scenarioSample.m_data_in ++ [0x7F] ∧
      bitGet s1.m_stat (psxHeader.stat .DTRINPUTLEVEL) = false) ∧
    (∃ s2, TransferWithSync psxHeader scenarioSample = some s2 ∧
      s2.m_data_in = scenarioSample.m_data_in ++ [0x7F] ∧
      bitGet s2.m_stat (psxHeader.stat .DTRINPUTLEVEL) = false) :=
  ⟨⟨_, rfl, by decide, by decide⟩, ⟨_, rfl, by decide, by decide⟩⟩

/-- C12 (amended): with an established connection, fewer than 8 bytes queued and
exactly the frame 0b101, 0x7F pending, the framed tick leaves 0x7F as the newest
FIFO entry, the CTS-input-level mirror true and the DTR-input-level mirror false;
one interrupt request is made for the frame exactly when RXINTEN is set, the only
other request being the one of a pending transmit byte with TXINTEN. -/
theorem C12_framed_scenario (H : Header) (hH : H.WF) (s : State) (c : SIOConnection)
    (hc : s.m_connection = some c) (hconn : c.IsConnected = true)
    (hrx : c.rx = [5, 0x7F]) (h : s.m_data_in.length < 8) :
    ∃ s2, TransferWithSync H s = some s2 ∧
      s2.m_data_in = s.m_data_in ++ [0x7F] ∧
      bitGet s2.m_stat (H.stat .CTSINPUTLEVEL) = true ∧
      bitGet s2.m_stat (H.stat .DTRINPUTLEVEL) = false ∧
      s2.irq_requests = s.irq_requests +
        (if bitGet s.m_ctrl (H.ctrl .RXINTEN) then 1 else 0) +
        (if s.m_data_out_full && bitGet s.m_ctrl (H.ctrl .TXINTEN) then 1 else 0) := by
  obtain ⟨s2, e, q, _, i, _, l, _, _⟩ := framed_tick_spec H hH s c hc hconn (by omega)
  have hfs : framesOf c.rx = [(5, 0x7F)] := by rw [hrx]; rfl
  have hdb : dataBytes (framesOf c.rx) = [0x7F] := by rw [hfs]; decide
  obtain ⟨l1, l2⟩ := l (5, 0x7F) (by rw [hfs]; rfl)
  refine ⟨s2, e, ?_, ?_, ?_, ?_⟩
  · rw [q, hdb]
    exact List.take_of_length_le (by simp; omega)
  · rw [l2]; decide
  · rw [l1]; decide
  · rw [i, hdb]; rfl

theorem C12_framed_scenario_witness :
    ∃ s2, TransferWithSync psxHeader scenarioSample = some s2 ∧
      s2.m_data_in = scenarioSample.m_data_in ++ [0x7F] ∧
      bitGet s2.m_stat (psxHeader.stat .CTSINPUTLEVEL) = true ∧
      bitGet s2.m_stat (psxHeader.stat .DTRINPUTLEVEL) = false ∧
      s2.irq_requests = scenarioSample.irq_requests +
        (if bitGet scenarioSample.m_ctrl (psxHeader.ctrl .RXINTEN) then 1 else 0) +
        (if scenarioSample.m_data_out_full &&
          bitGet scenarioSample.m_ctrl (psxHeader.ctrl .TXINTEN) then 1 else 0) :=
  C12_framed_scenario psxHeader (by decide) scenarioSample
    { connected := true, rx := [5, 0x7F], tx := [] } rfl rfl rfl (by decide)

/-! ## C13, C14: control write -/


/-- C13 as stated fails twice: after writing 0x10 (ACK alone) the control register
reads back 0x10, not 0; after writing 0x45 (RESET, RXEN, TXEN) it reads back 0,
not 0x05. -/
theorem C13_control_readback_counterexample :
    (∃ s1 r s2, WriteRegister psxHeader 0x0A 0x10 false ackSample = some s1 ∧
      ReadRegister psxHeader 0x0A false s1 = some (r, s2) ∧
      r ≠ ctrlReadBackClaimed psxHeader 0x10) ∧
    (∃ s1 r s2, WriteRegister psxHeader 0x0A 0x45 false ackSample = some s1 ∧
      ReadRegister psxHeader 0x0A false s1 = some (r, s2) ∧
      r ≠ ctrlReadBackClaimed psxHeader 0x45) :=
  ⟨⟨_, _, _, rfl, rfl, by decide⟩, ⟨_, _, _, rfl, rfl, by decide⟩⟩

/-- C13 (amended): with no transfer due, the control read that follows a control
write of `v` returns 0 when `v` has RESET set (the soft reset clears the whole
register) and the low 16 bits of `v` verbatim, ACK included, when RESET is clear;
the RESET bit is never read back, and the read leaves the state unchanged. -/
theorem C13_control_readback (H : Header) (hH : H.WF) (s : State) (v : Nat) (due : Bool) :
    ∃ s1 r, WriteRegister H 0x0A v false s = some s1 ∧
      ReadRegister H 0x0A due s1 = some (r, s1) ∧
      r = (if bitGet v (H.ctrl .RESET) then 0 else v % 65536) ∧
      bitGet r (H.ctrl .RESET) = false ∧
      (bitGet v (H.ctrl .RESET) = false → bitGet r (H.ctrl .ACK) = bitGet v (H.ctrl .ACK)) := by
  have hres : bitGet (Truncate16 v) (H.ctrl .RESET) = bitGet v (H.ctrl .RESET) :=
    bitGet_Truncate16 _ _ (hH.ctrl_lt _)
  have hack : bitGet (Truncate16 v) (H.ctrl .ACK) = bitGet v (H.ctrl .ACK) :=
    bitGet_Truncate16 _ _ (hH.ctrl_lt _)
  have hctrl : (writeCtrl H v s).m_ctrl = if bitGet v (H.ctrl .RESET) then 0 else v % 65536 := by
    unfold writeCtrl
    cases h1 : bitGet v (H.ctrl .RESET)
    · simp only [hres, h1, Bool.false_eq_true, if_false]
      split_ifs <;> simp [ackStatus, Truncate16]
    · simp only [hres, h1, if_true]
      split_ifs <;> simp [ackStatus, SoftReset]
  refine ⟨writeCtrl H v s, (writeCtrl H v s).m_ctrl, by simp [WriteRegister, InvokeEarly],
    by simp [ReadRegister, ZeroExtend32], hctrl, ?_, ?_⟩
  · rw [hctrl]
    cases h1 : bitGet v (H.ctrl .RESET)
    · simpa [Truncate16, h1] using hres
    · simp [bitGet_zero]
  · intro h1
    rw [hctrl]
    simpa [Truncate16, h1] using hack

theorem C13_control_readback_witness :
    ∃ s1 r, WriteRegister psxHeader 0x0A 0x15 false ackSample = some s1 ∧
      ReadRegister psxHeader 0x0A true s1 = some (r, s1) ∧
      r = (if bitGet 0x15 (psxHeader.ctrl .RESET) then 0 else 0x15 % 65536) ∧
      bitGet r (psxHeader.ctrl .RESET) = false ∧
      (bitGet 0x15 (psxHeader.ctrl .RESET) = false →
        bitGet r (psxHeader.ctrl .ACK) = bitGet 0x15 (psxHeader.ctrl .ACK)) :=
  C13_control_readback psxHeader (by decide) ackSample 0x15 true

/-- C14: with no transfer due, a control write whose value has TXEN clear leaves
the transmit slot not full without touching the connection (no write of the
pending byte), TXDONE false and TXRDY equal to the CTS input level; a value with
RXEN clear leaves the receive FIFO empty and RXFIFONEMPTY false. -/
theorem C14_disable_discards (H : Header) (hH : H.WF) (s : State) (v : Nat) :
    ∃ s1, WriteRegister H 0x0A v false s = some s1 ∧
      (bitGet v (H.ctrl .TXEN) = false →
        s1.m_data_out_full = false ∧ s1.m_connection = s.m_connection ∧
        bitGet s1.m_stat (H.stat .TXDONE) = false ∧
        bitGet s1.m_stat (H.stat .TXRDY) = bitGet s1.m_stat (H.stat .CTSINPUTLEVEL) ∧
        bitGet s1.m_stat (H.stat .CTSINPUTLEVEL) = bitGet s.m_stat (H.stat .CTSINPUTLEVEL)) ∧
      (bitGet v (H.ctrl .RXEN) = false →
        s1.m_data_in = [] ∧ bitGet s1.m_stat (H.stat .RXFIFONEMPTY) = false) := by
  have hres : bitGet (Truncate16 v) (H.ctrl .RESET) = bitGet v (H.ctrl .RESET) :=
    bitGet_Truncate16 _ _ (hH.ctrl_lt _)
  have hack : bitGet (Truncate16 v) (H.ctrl .ACK) = bitGet v (H.ctrl .ACK) :=
    bitGet_Truncate16 _ _ (hH.ctrl_lt _)
  have hrx : bitGet (Truncate16 v) (H.ctrl .RXEN) = bitGet v (H.ctrl .RXEN) :=
    bitGet_Truncate16 _ _ (hH.ctrl_lt _)
  have htx : bitGet (Truncate16 v) (H.ctrl .TXEN) = bitGet v (H.ctrl .TXEN) :=
    bitGet_Truncate16 _ _ (hH.ctrl_lt _)
  refine ⟨writeCtrl H v s, by simp [WriteRegister, InvokeEarly], ?_, ?_⟩
  · intro h4
    cases h1 : bitGet v (H.ctrl .RESET) <;> cases h2 : bitGet v (H.ctrl .ACK) <;>
      cases h3 : bitGet v (H.ctrl .RXEN) <;>
      simp [writeCtrl, hres, hack, hrx, htx, h1, h2, h3, h4, SoftReset, ackStatus, bitGet_zero,
        UpdateTXRX_m_stat, bitGet_bitSet, hH.stat_eq_iff, FIFOQueue.IsEmpty]
  · intro h3
    cases h1 : bitGet v (H.ctrl .RESET) <;> cases h2 : bitGet v (H.ctrl .ACK) <;>
      cases h4 : bitGet v (H.ctrl .TXEN) <;>
      simp [writeCtrl, hres, hack, hrx, htx, h1, h2, h3, h4, SoftReset, ackStatus, bitGet_zero,
        UpdateTXRX_m_stat, bitGet_bitSet, hH.stat_eq_iff, FIFOQueue.IsEmpty]

theorem C14_disable_discards_witness :
    ∃ s1, WriteRegister psxHeader 0x0A 0x0000 false sampleState = some s1 ∧
      (bitGet 0x0000 (psxHeader.ctrl .TXEN) = false →
        s1.m_data_out_full = false ∧ s1.m_connection = sampleState.m_connection ∧
        bitGet s1.m_stat (psxHeader.stat .TXDONE) = false ∧
        bitGet s1.m_stat (psxHeader.stat .TXRDY) =
          bitGet s1.m_stat (psxHeader.stat .CTSINPUTLEVEL) ∧
        bitGet s1.m_stat (psxHeader.stat .CTSINPUTLEVEL) =
          bitGet sampleState.m_stat (psxHeader.stat .CTSINPUTLEVEL)) ∧
      (bitGet 0x0000 (psxHeader.ctrl .RXEN) = false →
        s1.m_data_in = [] ∧ bitGet s1.m_stat (psxHeader.stat .RXFIFONEMPTY) = false) :=
  C14_disable_discards psxHeader (by decide) sampleState 0x0000

/-! ## C15, C16: framed tick -/


theorem framesOf_frameBytes (fs : List (Nat × Nat)) (tail : List Nat) (ht : tail.length < 2) :
    framesOf (frameBytes fs ++ tail) = fs ∧ leftover (frameBytes fs ++ tail) = tail := by
  induction fs with
  | nil =>
    match tail, ht with
    | [], _ => exact ⟨rfl, rfl⟩
    | [x], _ => exact ⟨rfl, rfl⟩
  | cons f fs ih =>
    obtain ⟨a, b⟩ := f
    exact ⟨by
      show (a, b) :: framesOf (frameBytes fs ++ tail) = (a, b) :: fs
      rw [ih.1], ih.2⟩

/-- C15: a framed tick on an established connection performs exactly one
connection write, of 2 bytes: byte 0 is 4 when the FIFO holds fewer than 8 bytes
after draining, or-ed with 2 when DTR output is requested and with 1 when the
transmit slot was full, byte 1 is the pending byte when the slot was full and 0
otherwise.  Afterwards the slot is empty; besides the requests of the drained data
frames (one each when RXINTEN is set) one interrupt request is made for the
transmit exactly when the slot was full and TXINTEN is set. -/
theorem C15_framed_outgoing_frame (H : Header) (hH : H.WF) (s : State) (c : SIOConnection)
    (hc : s.m_connection = some c) (hconn : c.IsConnected = true)
    (h : s.m_data_in.length ≤ 8) :
    ∃ s2 c2, TransferWithSync H s = some s2 ∧ s2.m_connection = some c2 ∧
      c2.tx = c.tx ++
        [[outFlags s2.m_data_in.length (bitGet s.m_ctrl (H.ctrl .DTROUTPUT)) s.m_data_out_full,
          if s.m_data_out_full then s.m_data_out else 0]] ∧
      s2.m_data_out_full = false ∧
      s2.irq_requests = s.irq_requests +
        (if bitGet s.m_ctrl (H.ctrl .RXINTEN) then (dataBytes (framesOf c.rx)).length else 0) +
        (if s.m_data_out_full && bitGet s.m_ctrl (H.ctrl .TXINTEN) then 1 else 0) := by
  obtain ⟨s2, e, _, o, i, n, _, _, _⟩ := framed_tick_spec H hH s c hc hconn h
  exact ⟨s2, _, e, n, rfl, o, i⟩

theorem C15_framed_outgoing_frame_witness :
    ∃ s2 c2, TransferWithSync psxHeader framedSample = some s2 ∧ s2.m_connection = some c2 ∧
      c2.tx = ({ connected := true, rx := [5, 0x7F], tx := [] } : SIOConnection).tx ++
        [[outFlags s2.m_data_in.length (bitGet framedSample.m_ctrl (psxHeader.ctrl .DTROUTPUT))
            framedSample.m_data_out_full,
          if framedSample.m_data_out_full then framedSample.m_data_out else 0]] ∧
      s2.m_data_out_full = false ∧
      s2.irq_requests = framedSample.irq_requests +
        (if bitGet framedSample.m_ctrl (psxHeader.ctrl .RXINTEN) then
          (dataBytes (framesOf
            ({ connected := true, rx := [5, 0x7F], tx := [] } : SIOConnection).rx)).length
          else 0) +
        (if framedSample.m_data_out_full &&
          bitGet framedSample.m_ctrl (psxHeader.ctrl .TXINTEN) then 1 else 0) :=
  C15_framed_outgoing_frame psxHeader (by decide) framedSample
    { connected := true, rx := [5, 0x7F], tx := [] } rfl rfl (by decide)

/-- C16: on a framed tick with an established connection whose unread bytes are
the complete frames `fs` (followed by at most one byte of an incomplete frame),
all frames are consumed, the FIFO becomes the old FIFO followed in arrival order
by the data bytes of the frames with bit 0 set, cut off at 8 bytes; when `fs` is
not empty the DTR and CTS mirrors equal bits 1 and 2 of the flag byte of the last
frame (whatever its data flag), and when no frame is available the mirrors and
the FIFO are unchanged. -/
theorem C16_framed_drain (H : Header) (hH : H.WF) (s : State) (c : SIOConnection)
    (fs : List (Nat × Nat)) (tail : List Nat) (hc : s.m_connection = some c)
    (hconn : c.IsConnected = true) (hrx : c.rx = frameBytes fs ++ tail)
    (htail : tail.length < 2) (h : s.m_data_in.length ≤ 8) :
    ∃ s2 c2, TransferWithSync H s = some s2 ∧ s2.m_connection = some c2 ∧ c2.rx = tail ∧
      s2.m_data_in = (s.m_data_in ++ dataBytes fs).take 8 ∧
      (∀ f, fs.getLast? = some f →
        bitGet s2.m_stat (H.stat .DTRINPUTLEVEL) = bitGet f.1 1 ∧
        bitGet s2.m_stat (H.stat .CTSINPUTLEVEL) = bitGet f.1 2) ∧
      (fs = [] →
        bitGet s2.m_stat (H.stat .DTRINPUTLEVEL) = bitGet s.m_stat (H.stat .DTRINPUTLEVEL) ∧
        bitGet s2.m_stat (H.stat .CTSINPUTLEVEL) = bitGet s.m_stat (H.stat .CTSINPUTLEVEL) ∧
        s2.m_data_in = s.m_data_in) := by
  obtain ⟨s2, e, q, _, _, n, l, z, _⟩ := framed_tick_spec H hH s c hc hconn h
  obtain ⟨hf, hl⟩ := framesOf_frameBytes fs tail htail
  rw [hrx, hf] at q l z
  rw [hrx, hl] at n
  refine ⟨s2, _, e, n, rfl, q, l, ?_⟩
  intro hnil
  obtain ⟨z1, z2⟩ := z hnil
  refine ⟨z1, z2, ?_⟩
  rw [q, hnil]
  simp [dataBytes, List.take_of_length_le h]

theorem C16_framed_drain_witness :
    ∃ s2 c2, TransferWithSync psxHeader drainSample = some s2 ∧ s2.m_connection = some c2 ∧
      c2.rx = [] ∧
      s2.m_data_in = (drainSample.m_data_in ++ dataBytes [(1, 0x11), (3, 0x22), (4, 0x33),
        (1, 0x44), (2, 0x55)]).take 8 ∧
      (∀ f, [(1, 0x11), (3, 0x22), (4, 0x33), (1, 0x44), (2, 0x55)].getLast? = some f →
        bitGet s2.m_stat (psxHeader.stat .DTRINPUTLEVEL) = bitGet f.1 1 ∧
        bitGet s2.m_stat (psxHeader.stat .CTSINPUTLEVEL) = bitGet f.1 2) ∧
      ([(1, 0x11), (3, 0x22), (4, 0x33), (1, 0x44), (2, 0x55)] = ([] : List (Nat × Nat)) →
        bitGet s2.m_stat (psxHeader.stat .DTRINPUTLEVEL) =
          bitGet drainSample.m_stat (psxHeader.stat .DTRINPUTLEVEL) ∧
        bitGet s2.m_stat (psxHeader.stat .CTSINPUTLEVEL) =
          bitGet drainSample.m_stat (psxHeader.stat .CTSINPUTLEVEL) ∧
        s2.m_data_in = drainSample.m_data_in) :=
  C16_framed_drain psxHeader (by decide) drainSample
    { connected := true, rx := [1, 0x11, 3, 0x22, 4, 0x33, 1, 0x44, 2, 0x55], tx := [] }
    [(1, 0x11), (3, 0x22), (4, 0x33), (1, 0x44), (2, 0x55)] [] rfl rfl rfl (by decide)
    (by decide)

/-! ## C17, C18: derived status bits and the data-read sentinel -/


theorem UpdateTXRX_consistent (H : Header) (hH : H.WF) (s : State) :
    DerivedConsistent H (UpdateTXRX H s) := by
  simp [DerivedConsistent, UpdateTXRX_m_stat, bitGet_bitSet, hH.stat_eq_iff]

/-- C17, evaluation at the failing inputs: from the consistent state
`consistentFramed` the framed tick returns a state whose derived status bits are
stale (TXRDY still set with the CTS mirror now false, RXFIFONEMPTY still clear
with a byte queued); from the consistent state `consistentDisabled` the control
write 0x0005 returns a state whose TXDONE is stale; the unframed tick on the
first state ends consistent. -/
theorem C17_derived_status_stale :
    DerivedConsistent psxHeader consistentFramed ∧
    (∃ s1, TransferWithSync psxHeader consistentFramed = some s1 ∧
      ¬ DerivedConsistent psxHeader s1) ∧
    DerivedConsistent psxHeader consistentDisabled ∧
    (∃ s1, WriteRegister psxHeader 0x0A 0x0005 false consistentDisabled = some s1 ∧
      ¬ DerivedConsistent psxHeader s1) ∧
    (∃ s1, TransferWithoutSync psxHeader consistentFramed = some s1 ∧
      DerivedConsistent psxHeader s1) :=
  ⟨by decide, ⟨_, rfl, by decide⟩, by decide, ⟨_, rfl, by decide⟩, ⟨_, rfl, by decide⟩⟩

/-- C18: with no transfer due and a FIFO within its capacity, the data read returns
0xFFFFFFFF exactly when the FIFO holds 0 or 8 bytes, whatever the bytes are; with
1 to 7 bytes queued the low 16 bits of the result are zero. -/
theorem C18_data_read_sentinel (H : Header) (s : State) (h : s.m_data_in.length ≤ 8) :
    ∃ r, ReadRegister H 0x00 false s = some (r, UpdateTXRX H s) ∧
      (r = 4294967295 ↔ (s.m_data_in.length = 0 ∨ s.m_data_in.length = 8)) ∧
      (1 ≤ s.m_data_in.length → s.m_data_in.length ≤ 7 → ∀ i, i < 16 → r.testBit i = false) := by
  have hlow : 1 ≤ s.m_data_in.length → s.m_data_in.length ≤ 7 → ∀ i, i < 16 →
      (packDataIn s.m_data_in).testBit i = false := by
    intro h1 h7 i hi
    have hi2 : ¬ 16 ≤ i := by omega
    have hi3 : ¬ 24 ≤ i := by omega
    rcases packDataIn_cases _ h1 h7 with ⟨_, e⟩ | ⟨_, e⟩ | ⟨_, e⟩ | ⟨_, e⟩ <;> rw [e] <;>
      simp [testBit_dataCase1, testBit_dataCase2, testBit_dataCase3, testBit_dataCase4, hi2, hi3]
  refine ⟨packDataIn s.m_data_in, by simp [ReadRegister, InvokeEarly], ?_, hlow⟩
  constructor
  · intro hr
    by_contra hne
    have hbit := hlow (by omega) (by omega) 0 (by decide)
    rw [hr] at hbit
    revert hbit
    decide
  · intro hl
    unfold packDataIn FIFOQueue.GetSize
    rcases hl with h0 | h0 <;> simp [h0]

theorem C18_data_read_sentinel_witness :
    ∃ r, ReadRegister psxHeader 0x00 false sampleState =
        some (r, UpdateTXRX psxHeader sampleState) ∧
      (r = 4294967295 ↔
        (sampleState.m_data_in.length = 0 ∨ sampleState.m_data_in.length = 8)) ∧
      (1 ≤ sampleState.m_data_in.length → sampleState.m_data_in.length ≤ 7 →
        ∀ i, i < 16 → r.testBit i = false) :=
  C18_data_read_sentinel psxHeader sampleState (by decide)

/-! ## Steps and runs -/


theorem receiveWithoutSync_spec (H : Header) (s : State) (c : SIOConnection)
    (h : s.m_data_in.length ≤ 8) :
    ∃ r, receiveWithoutSync H s c = some r ∧ s.m_data_in.length ≤ r.1.m_data_in.length ∧
      r.1.m_data_in.length ≤ 8 ∧ KeepsConfig s r.1 := by
  unfold receiveWithoutSync
  split
  · split
    · rename_i data_in rest c1 _
      by_cases hf : s.m_data_in.IsFull = true
      · rw [if_pos hf]
        have h8 : s.m_data_in.length = 8 := by simpa [FIFOQueue.IsFull, CAPACITY] using hf
        cases hq : s.m_data_in with
        | nil => rw [hq] at h8; simp at h8
        | cons a t =>
          rw [hq] at h8
          have ht : t.length < 8 := by simp at h8; omega
          have ht7 : t.length = 7 := by simp at h8; omega
          simp only [FIFOQueue.RemoveOne, Option.map_some', Option.some_bind, Push_of_lt t data_in ht]
          refine ⟨_, rfl, ?_⟩
          split <;> simp [SetInterrupt, KeepsConfig, ht7]
      · rw [if_neg hf]
        have h8 : s.m_data_in.length < 8 := by
          have : s.m_data_in.length ≠ 8 := by simpa [FIFOQueue.IsFull, CAPACITY] using hf
          omega
        simp only [Option.some_bind, Push_of_lt _ data_in h8, Option.map_some']
        refine ⟨_, rfl, ?_⟩
        split <;> simp [SetInterrupt, KeepsConfig] <;> omega
    · exact ⟨_, rfl, le_refl _, h, KeepsConfig.refl s⟩
  · exact ⟨_, rfl, le_refl _, h, KeepsConfig.refl s⟩

theorem sendWithoutSync_keeps (H : Header) (s : State) (c : SIOConnection) :
    (sendWithoutSync H s c).1.m_data_in = s.m_data_in ∧
      KeepsConfig s (sendWithoutSync H s c).1 := by
  unfold sendWithoutSync
  split
  · dsimp only; split <;> simp [SetInterrupt, KeepsConfig]
  · exact ⟨rfl, KeepsConfig.refl s⟩

theorem TransferWithoutSync_spec (H : Header) (s : State) (h : s.m_data_in.length ≤ 8) :
    ∃ s1, TransferWithoutSync H s = some s1 ∧ s.m_data_in.length ≤ s1.m_data_in.length ∧
      s1.m_data_in.length ≤ 8 ∧ KeepsConfig s s1 ∧
      s1.m_connection.isSome = s.m_connection.isSome := by
  unfold TransferWithoutSync
  split
  · rename_i c hc
    split
    · obtain ⟨r, hr, m1, m2, k⟩ := receiveWithoutSync_spec H (setInputLevels H s true) c h
      obtain ⟨q2, k2⟩ := sendWithoutSync_keeps H r.1 r.2
      rw [hr]
      refine ⟨_, rfl, ?_, ?_, ?_, ?_⟩
      · simp only [UpdateTXRX_m_data_in]; rw [q2]; exact m1
      · simp only [UpdateTXRX_m_data_in]; rw [q2]; exact m2
      · have k3 := k.trans k2
        obtain ⟨a1, a2, a3, a4, a5, a6⟩ := k3
        exact ⟨a1, a2, a3, a4, a5, a6⟩
      · simp [hc]
    · exact ⟨_, rfl, le_refl _, h, KeepsConfig.refl s, rfl⟩
  · exact ⟨_, rfl, le_refl _, h, KeepsConfig.refl s, rfl⟩

theorem TransferWithSync_spec (H : Header) (hH : H.WF) (s : State)
    (h : s.m_data_in.length ≤ 8) :
    ∃ s1, TransferWithSync H s = some s1 ∧ s.m_data_in.length ≤ s1.m_data_in.length ∧
      s1.m_data_in.length ≤ 8 ∧ KeepsConfig s s1 ∧
      s1.m_connection.isSome = s.m_connection.isSome := by
  cases hc : s.m_connection with
  | none =>
    refine ⟨setInputLevels H s false, by simp [TransferWithSync, hc], le_refl _, h,
      KeepsConfig.refl s, by simp [setInputLevels, hc]⟩
  | some c =>
    by_cases hconn : c.IsConnected = true
    · obtain ⟨s2, e, q, _, _, n, _, _, k⟩ := framed_tick_spec H hH s c hc hconn h
      refine ⟨s2, e, ?_, ?_, k, by simp [n]⟩
      · rw [q, List.length_take, List.length_append]; omega
      · rw [q, List.length_take]; omega
    · refine ⟨setInputLevels H s false, by simp [TransferWithSync, hc, hconn], le_refl _, h,
        KeepsConfig.refl s, by simp [setInputLevels, hc]⟩

theorem InvokeEarly_spec (H : Header) (hH : H.WF) (due : Bool) (s : State)
    (h : s.m_data_in.length ≤ 8) :
    ∃ s1, InvokeEarly H due s = some s1 ∧ s.m_data_in.length ≤ s1.m_data_in.length ∧
      s1.m_data_in.length ≤ 8 ∧ KeepsConfig s s1 ∧
      s1.m_connection.isSome = s.m_connection.isSome := by
  unfold InvokeEarly
  split
  · unfold TransferEvent
    split
    · exact TransferWithSync_spec H hH s h
    · exact TransferWithoutSync_spec H s h
  · exact ⟨s, rfl, le_refl _, h, KeepsConfig.refl s, rfl⟩

theorem step_nonCtrl_spec (H : Header) (hH : H.WF) (o : Op) (s : State)
    (ho : o.nonCtrl = true) (h : s.m_data_in.length ≤ 8) :
    ∃ s1, step H o s = some s1 ∧ s.m_data_in.length ≤ s1.m_data_in.length ∧
      s1.m_data_in.length ≤ 8 := by
  cases o with
  | SoftReset => simp [Op.nonCtrl] at ho
  | ReadRegister offset due =>
    obtain ⟨s1, e, m1, m2, _⟩ := InvokeEarly_spec H hH due s h
    simp only [step, ReadRegister]
    split <;> simp [e, m1, m2, h]
  | WriteRegister offset value due =>
    obtain ⟨s1, e, m1, m2, _⟩ := InvokeEarly_spec H hH due s h
    simp only [step, WriteRegister]
    split
    · simp [e, m1, m2]
    · simp [Op.nonCtrl] at ho
    · exact ⟨_, rfl, le_refl _, h⟩
    · exact ⟨_, rfl, le_refl _, h⟩
    · exact ⟨_, rfl, le_refl _, h⟩
  | TransferWithoutSync =>
    obtain ⟨s1, e, m1, m2, _⟩ := TransferWithoutSync_spec H s h
    exact ⟨s1, e, m1, m2⟩
  | TransferWithSync =>
    obtain ⟨s1, e, m1, m2, _⟩ := TransferWithSync_spec H hH s h
    exact ⟨s1, e, m1, m2⟩

theorem run_nonCtrl_spec (H : Header) (hH : H.WF) (es : List Event) : ∀ (s : State),
    (∀ e ∈ es, e.nonCtrl = true) → s.m_data_in.length ≤ 8 →
    ∃ s1, run H es s = some s1 ∧ s.m_data_in.length ≤ s1.m_data_in.length ∧
      s1.m_data_in.length ≤ 8 := by
  induction es with
  | nil => intro s _ h; exact ⟨s, rfl, le_refl _, h⟩
  | cons e es ih =>
    intro s hall h
    have he : e.nonCtrl = true := hall e (by simp)
    have hrest : ∀ e2 ∈ es, e2.nonCtrl = true := fun e2 h2 => hall e2 (by simp [h2])
    have hstep : ∃ s1, e.apply H s = some s1 ∧ s.m_data_in.length ≤ s1.m_data_in.length ∧
        s1.m_data_in.length ≤ 8 := by
      cases e with
      | op o => exact step_nonCtrl_spec H hH o s he h
      | peer c =>
        refine ⟨_, rfl, ?_, ?_⟩ <;> (dsimp only; split <;> simp [h])
    obtain ⟨s1, e1, m1, m2⟩ := hstep
    obtain ⟨s2, e2, n1, n2⟩ := ih s1 hrest m2
    exact ⟨s2, by simp [run, e1, e2], le_trans m1 n1, n2⟩

/-! ## C19: the FIFO never drains; schedule lemmas -/


theorem run_append (H : Header) (es1 es2 : List Event) : ∀ (s : State),
    run H (es1 ++ es2) s = (run H es1 s).bind (run H es2) := by
  induction es1 with
  | nil => intro s; rfl
  | cons e es ih =>
    intro s
    simp only [List.cons_append, run]
    cases e.apply H s with
    | none => rfl
    | some s1 => simp [ih s1]

/-- C19: along every finite sequence of events other than a control write (and a
direct soft reset) -- register reads of every kind, data, mode and baud writes,
ticks of both protocols, with or without due transfers and with any change of the
connection in between -- the size of the receive FIFO never decreases: it is
monotone from the start to every intermediate state and on to the end, so a FIFO
of 8 bytes stays at 8 bytes.  A data read leaves the FIFO contents exactly as
they are, respectively as the early transfer it triggers left them. -/
theorem C19_fifo_never_drains (H : Header) (hH : H.WF) (es1 es2 : List Event) (s : State)
    (h1 : ∀ e ∈ es1, e.nonCtrl = true) (h2 : ∀ e ∈ es2, e.nonCtrl = true)
    (h : s.m_data_in.length ≤ 8) :
    (∃ smid send, run H es1 s = some smid ∧ run H (es1 ++ es2) s = some send ∧
      s.m_data_in.length ≤ smid.m_data_in.length ∧
      smid.m_data_in.length ≤ send.m_data_in.length ∧ send.m_data_in.length ≤ 8 ∧
      (s.m_data_in.length = 8 → smid.m_data_in.length = 8 ∧ send.m_data_in.length = 8)) ∧
    (∃ r s1, ReadRegister H 0x00 false s = some (r, s1) ∧ s1.m_data_in = s.m_data_in) ∧
    (∀ due, ∃ s0 r s1, InvokeEarly H due s = some s0 ∧
      ReadRegister H 0x00 due s = some (r, s1) ∧ s1.m_data_in = s0.m_data_in) := by
  refine ⟨?_, ?_, ?_⟩
  · obtain ⟨smid, e1, m1, m2⟩ := run_nonCtrl_spec H hH es1 s h1 h
    obtain ⟨send, e2, n1, n2⟩ := run_nonCtrl_spec H hH es2 smid h2 m2
    refine ⟨smid, send, e1, by rw [run_append, e1]; exact e2, m1, n1, n2, ?_⟩
    intro h8
    constructor <;> omega
  · exact ⟨packDataIn s.m_data_in, UpdateTXRX H s, by simp [ReadRegister, InvokeEarly], rfl⟩
  · intro due
    obtain ⟨s0, e0, _⟩ := InvokeEarly_spec H hH due s h
    exact ⟨s0, packDataIn s0.m_data_in, UpdateTXRX H s0, e0,
      by simp only [ReadRegister, e0, Option.map_some'], rfl⟩

theorem C19_fifo_never_drains_witness :
    (∃ smid send, run psxHeader sampleNonCtrlEvents sampleState = some smid ∧
      run psxHeader (sampleNonCtrlEvents ++ sampleNonCtrlEvents) sampleState = some send ∧
      sampleState.m_data_in.length ≤ smid.m_data_in.length ∧
      smid.m_data_in.length ≤ send.m_data_in.length ∧ send.m_data_in.length ≤ 8 ∧
      (sampleState.m_data_in.length = 8 →
        smid.m_data_in.length = 8 ∧ send.m_data_in.length = 8)) ∧
    (∃ r s1, ReadRegister psxHeader 0x00 false sampleState = some (r, s1) ∧
      s1.m_data_in = sampleState.m_data_in) ∧
    (∀ due, ∃ s0 r s1, InvokeEarly psxHeader due sampleState = some s0 ∧
      ReadRegister psxHeader 0x00 due sampleState = some (r, s1) ∧
      s1.m_data_in = s0.m_data_in) :=
  C19_fifo_never_drains psxHeader (by decide) sampleNonCtrlEvents sampleNonCtrlEvents
    sampleState (by decide) (by decide) (by decide)

theorem GetTicks_reset (H : Header) (t : State) (hm : t.m_mode = 0) (hb : t.m_baud_rate = 220) :
    GetTicksBetweenTransfers H t = 220 := by
  unfold GetTicksBetweenTransfers reload_factor
  rw [hm, hb, Nat.zero_shiftRight]
  rfl

theorem UpdateEvent_schedule (H : Header) (t : State) (hm : t.m_mode = 0)
    (hb : t.m_baud_rate = 220) : ScheduleInv (UpdateEvent H t) := by
  unfold UpdateEvent
  cases hc : t.m_connection with
  | none => simp [ScheduleInv, TimingEvent.Deactivate, hc]
  | some c =>
    simp only [GetTicks_reset H t hm hb]
    rw [if_neg (by decide : ¬ ((220 : Int) = 0))]
    split_ifs with h2
    · exact ⟨by rw [h2.2, hc]; rfl, fun _ => h2.1⟩
    · simp [ScheduleInv, TimingEvent.SetPeriodAndSchedule, hc]

theorem UpdateTXRX_schedule (H : Header) (s : State) (h : ScheduleInv s) :
    ScheduleInv (UpdateTXRX H s) := h

theorem SoftReset_schedule (H : Header) (s : State) :
    ScheduleInv (SoftReset H s) ∧ (SoftReset H s).m_connection = s.m_connection ∧
      (SoftReset H s).m_data_in = [] := by
  refine ⟨?_, by simp [SoftReset], by simp [SoftReset]⟩
  unfold SoftReset
  exact UpdateTXRX_schedule H _ (UpdateEvent_schedule H _ rfl rfl)

theorem writeCtrl_schedule (H : Header) (v : Nat) (s : State) (h : ScheduleInv s) :
    ScheduleInv (writeCtrl H v s) ∧ (writeCtrl H v s).m_connection = s.m_connection := by
  have hr := SoftReset_schedule H { s with m_ctrl := Truncate16 v }
  unfold writeCtrl
  dsimp only
  split_ifs <;> first
    | exact ⟨hr.1, hr.2.1⟩
    | exact ⟨h, rfl⟩

/-! ## C20: the schedule -/


theorem ScheduleInv_of_keeps (s s1 : State) (h : ScheduleInv s) (k : KeepsConfig s s1)
    (hc : s1.m_connection.isSome = s.m_connection.isSome) : ScheduleInv s1 := by
  unfold ScheduleInv at *
  rw [k.2.2.2.2.2, hc]
  exact h

theorem step_schedule (H : Header) (hH : H.WF) (o : Op) (s : State) (hs : ScheduleInv s)
    (h : s.m_data_in.length ≤ 8) :
    ∃ s1, step H o s = some s1 ∧ ScheduleInv s1 ∧ s1.m_data_in.length ≤ 8 ∧
      s1.m_connection.isSome = s.m_connection.isSome := by
  cases o with
  | SoftReset =>
    obtain ⟨a, b, c⟩ := SoftReset_schedule H s
    exact ⟨_, rfl, a, by rw [c]; simp, by rw [b]⟩
  | ReadRegister offset due =>
    obtain ⟨s1, e, _, m2, k, n⟩ := InvokeEarly_spec H hH due s h
    have hs1 := ScheduleInv_of_keeps s s1 hs k n
    simp only [step, ReadRegister]
    split
    · exact ⟨UpdateTXRX H s1, by simp [e], hs1, m2, n⟩
    · exact ⟨s1, by simp [e], hs1, m2, n⟩
    · exact ⟨s, rfl, hs, h, rfl⟩
    · exact ⟨s, rfl, hs, h, rfl⟩
    · exact ⟨s, rfl, hs, h, rfl⟩
    · exact ⟨s, rfl, hs, h, rfl⟩
  | WriteRegister offset value due =>
    obtain ⟨s1, e, _, m2, k, n⟩ := InvokeEarly_spec H hH due s h
    have hs1 := ScheduleInv_of_keeps s s1 hs k n
    simp only [step, WriteRegister]
    split
    · exact ⟨UpdateTXRX H { s1 with m_data_out := Truncate8 value, m_data_out_full := true },
        by simp [e], hs1, m2, n⟩
    · obtain ⟨a, b⟩ := writeCtrl_schedule H value s1 hs1
      refine ⟨writeCtrl H value s1, by simp [e], a, ?_, by rw [b, n]⟩
      rcases writeCtrl_m_data_in H value s1 with h3 | h3 <;> rw [h3]
      · exact m2
      · simp
    · exact ⟨_, rfl, hs, h, rfl⟩
    · exact ⟨_, rfl, hs, h, rfl⟩
    · exact ⟨_, rfl, hs, h, rfl⟩
  | TransferWithoutSync =>
    obtain ⟨s1, e, _, m2, k, n⟩ := TransferWithoutSync_spec H s h
    exact ⟨s1, e, ScheduleInv_of_keeps s s1 hs k n, m2, n⟩
  | TransferWithSync =>
    obtain ⟨s1, e, _, m2, k, n⟩ := TransferWithSync_spec H hH s h
    exact ⟨s1, e, ScheduleInv_of_keeps s s1 hs k n, m2, n⟩

theorem run_schedule (H : Header) (hH : H.WF) (es : List Event) : ∀ (s : State),
    ScheduleInv s → s.m_data_in.length ≤ 8 →
    ∃ s1, run H es s = some s1 ∧ ScheduleInv s1 ∧ s1.m_data_in.length ≤ 8 ∧
      s1.m_connection.isSome = s.m_connection.isSome := by
  induction es with
  | nil => intro s hs h; exact ⟨s, rfl, hs, h, rfl⟩
  | cons e es ih =>
    intro s hs h
    have hstep : ∃ s1, e.apply H s = some s1 ∧ ScheduleInv s1 ∧ s1.m_data_in.length ≤ 8 ∧
        s1.m_connection.isSome = s.m_connection.isSome := by
      cases e with
      | op o => exact step_schedule H hH o s hs h
      | peer c =>
        cases hc : s.m_connection with
        | none => exact ⟨s, by simp [Event.apply, hc], hs, h, by rw [hc]⟩
        | some c0 =>
          refine ⟨{ s with m_connection := some c }, by simp [Event.apply, hc], ?_, h, rfl⟩
          unfold ScheduleInv at *
          rw [hc] at hs
          exact hs
    obtain ⟨s1, e1, a1, b1, c1⟩ := hstep
    obtain ⟨s2, e2, a2, b2, c2⟩ := ih s1 a1 b1
    exact ⟨s2, by simp [run, e1, e2], a2, b2, c2.trans c1⟩

/-- C20: in every state reached from `Initialize` by any finite sequence of
register reads, register writes (mode and baud writes of any value and control
writes with RESET included), direct resets, transfer ticks and changes of the
connection, the periodic event is active exactly when a connection is attached,
and an active event has period 220, whatever the max-slice constant is.  The only
caller of `UpdateEvent`, the soft reset, calls it on registers for which
`GetTicksBetweenTransfers` is 220, so the value 0 is never observed and the
max-slice fallback is never taken. -/
theorem C20_schedule_constant (H : Header) (hH : H.WF) (pre : State)
    (conn : Option SIOConnection) (es : List Event) :
    (∃ s, run H es (Initialize H pre conn) = some s ∧ ScheduleInv s ∧
      s.m_connection.isSome = conn.isSome) ∧
    (∀ t : State, ∃ t1, SoftReset H t = UpdateTXRX H (UpdateEvent H t1) ∧
      GetTicksBetweenTransfers H t1 = 220) := by
  constructor
  · obtain ⟨a, b, c⟩ := SoftReset_schedule H { pre with
      m_transfer_event := { period := 1, active := false }
      m_connection := conn
      m_stat := 0 }
    obtain ⟨s, e, hs, _, hc⟩ := run_schedule H hH es (Initialize H pre conn) a (by
      show (SoftReset H _).m_data_in.length ≤ 8
      rw [c]; simp)
    refine ⟨s, e, hs, ?_⟩
    rw [hc]
    show (SoftReset H _).m_connection.isSome = conn.isSome
    rw [b]
  · intro t
    exact ⟨_, rfl, GetTicks_reset H _ rfl rfl⟩

theorem C20_schedule_constant_witness :
    (∃ s, run psxHeader sampleEvents
        (Initialize psxHeader sampleState (some { connected := true, rx := [], tx := [] })) =
          some s ∧ ScheduleInv s ∧
      s.m_connection.isSome =
        (some ({ connected := true, rx := [], tx := [] } : SIOConnection)).isSome) ∧
    (∀ t : State, ∃ t1, SoftReset psxHeader t = UpdateTXRX psxHeader (UpdateEvent psxHeader t1) ∧
      GetTicksBetweenTransfers psxHeader t1 = 220) :=
  C20_schedule_constant psxHeader (by decide) sampleState
    (some { connected := true, rx := [], tx := [] }) sampleEvents

end Sio
